import Mathlib

/-!
# Verification of the ssbc SIP stack core

Shallow embedding, in Lean 4, of the parts of the `ssbc` Rust crate that the
specification's claims are about: the `TextRange` model (`types.rs`), the
parser limits (`limits.rs`), the SDP model (`sdp.rs`), the B2BUA call manager
(`b2bua.rs`), the enhanced transaction timers (`b2bua_enhanced.rs`), the
zero-copy message modifier (`modification.rs`) and the header dispatch of the
message parser (`main_impl.rs` together with the macros in `parsing.rs` and
the checks in `validation.rs`).

Rust machine integers are modelled as `Nat` with explicit `% 2^w` where the
source truncates (`usize as u16`).  Fallible Rust functions returning
`SsbcResult<T>` are modelled as `Except SsbcError T`.  `HashMap`s whose
iteration order the verified properties do not depend on are modelled as
association lists with `HashMap::insert` (replace-or-append) semantics.
-/

namespace Ssbc

/-! ## Character and string utilities

The Rust code uses `eq_ignore_ascii_case`, `to_lowercase`, `str::lines`,
`split_whitespace`, `trim` and `char::is_control`.  We implement them over
`List Char` by structural recursion so that concrete evaluations reduce in
the kernel. -/

/-- ASCII lower-casing of a character, as done by `u8::to_ascii_lowercase` /
`char::to_ascii_lowercase` in Rust (only `A`-`Z` are mapped). -/
def asciiLower (c : Char) : Char :=
  if 'A' ≤ c ∧ c ≤ 'Z' then Char.ofNat (c.toNat + 32) else c

/-- ASCII-lowercase a whole string (model of `str::to_lowercase` on ASCII
input; the claims we verify constrain the relevant names to ASCII). -/
def lowerStr (s : String) : String :=
  ⟨s.data.map asciiLower⟩

/-- Model of Rust `str::eq_ignore_ascii_case`. -/
def eqIgnoreCase (a b : String) : Bool :=
  a.data.map asciiLower == b.data.map asciiLower

theorem eqIgnoreCase_symm (a b : String) : eqIgnoreCase a b = eqIgnoreCase b a := by
  simp only [eqIgnoreCase, Bool.beq_comm]

theorem eqIgnoreCase_trans {a b c : String} (hab : eqIgnoreCase a b = true)
    (hbc : eqIgnoreCase b c = true) : eqIgnoreCase a c = true := by
  simp only [eqIgnoreCase, beq_iff_eq] at *
  exact hab.trans hbc

/-- Split a character list at every occurrence of the separator `sep`. -/
def splitOnChar (sep : Char) : List Char → List (List Char)
  | [] => [[]]
  | c :: cs =>
    let rest := splitOnChar sep cs
    if c = sep then [] :: rest
    else
      match rest with
      | [] => [[c]]
      | r :: rs => (c :: r) :: rs

/-- Drop a single trailing `\r` (used when modelling `str::lines`). -/
def dropTrailingCR (l : List Char) : List Char :=
  match l.getLast? with
  | some '\r' => l.dropLast
  | _ => l

/-- Model of Rust `str::lines`: split on `\n`, strip one trailing `\r` from
each piece, and do not yield a final empty line for a trailing newline. -/
def rustLines (s : String) : List String :=
  let pieces := splitOnChar '\n' s.data
  let pieces :=
    match pieces.getLast? with
    | some [] => pieces.dropLast
    | _ => pieces
  pieces.map fun l => ⟨dropTrailingCR l⟩

/-- Rust `char::is_whitespace` restricted to the characters that can occur in
the inputs we treat (ASCII whitespace). -/
def isWS (c : Char) : Bool :=
  c = ' ' ∨ c = '\t' ∨ c = '\n' ∨ c = '\r'

/-- Model of Rust `str::split_whitespace` (no empty items). -/
def splitWhitespace (s : String) : List String :=
  ((s.data.splitOnP isWS).filter (· ≠ [])).map fun l => ⟨l⟩

/-- Model of Rust `str::trim` (ASCII whitespace from both ends). -/
def rustTrim (s : String) : String :=
  ⟨(s.data.dropWhile isWS).reverse.dropWhile isWS |>.reverse⟩

/-- Model of Rust `u16::from_str`: optional `+` sign, then one or more ASCII
digits, value at most `65535`. -/
def parseU16 (s : String) : Option Nat :=
  let ds := match s.data with
    | '+' :: rest => some rest
    | l => some l
  match ds with
  | some [] => none
  | some l =>
    if l.all Char.isDigit then
      let v := l.foldl (fun acc c => acc * 10 + (c.toNat - 48)) 0
      if v ≤ 65535 then some v else none
    else none
  | none => none

deriving instance DecidableEq for Except

/-! ## Errors (`error.rs`)

Only the parse-error message and the error kind are relevant to the claims;
positions and context strings are carried but never inspected by them. -/

/-- The error kinds of `SsbcError` that the verified operations can produce. -/
inductive SsbcError where
  /-- `SsbcError::ParseError { message, .. }` -/
  | ParseError (message : String)
  /-- `SsbcError::StateError { operation, reason, .. }` -/
  | StateError (operation reason : String)
  /-- `SsbcError::ResourceError` (carrying current and limit) -/
  | ResourceError (current limit : Nat)
  deriving DecidableEq, Repr

/-! ## `TextRange` (`types.rs`) and the parser limits (`limits.rs`) -/

/-- `TextRange { start: u16, end: u16 }`: both fields are 16-bit machine
integers, modelled as `Nat` kept below `2^16` by the constructors below.
The field `end` is renamed `stop` (`end` is a Lean keyword). -/
structure TextRange where
  start : Nat
  stop : Nat
  deriving DecidableEq, Repr

/-- `TextRange::from_usize(start, end)`: the source performs `start as u16`
and `end as u16`, i.e. truncation modulo `2^16`. -/
def TextRange.fromUsize (start stop : Nat) : TextRange :=
  { start := start % 65536, stop := stop % 65536 }

/-- `limits.rs`: `MAX_MESSAGE_SIZE`, the default `max_message_size` of
`ParserLimits::default()` — 64 MiB. -/
def MAX_MESSAGE_SIZE : Nat := 64 * 1024 * 1024

/-- Range soundness for a range `r` over a buffer of length `len`
(spec: `R.start ≤ R.end ≤ |B|`). -/
def rangeSound (r : TextRange) (len : Nat) : Prop :=
  r.start ≤ r.stop ∧ r.stop ≤ len

instance (r : TextRange) (len : Nat) : Decidable (rangeSound r len) := by
  unfold rangeSound; infer_instance

/-- `main_impl.rs` line 435: when a body is present the parser stores
`body = TextRange::from_usize(body_start, message_len)`. -/
def parseBodyRange (bodyStart messageLen : Nat) : TextRange :=
  TextRange.fromUsize bodyStart messageLen

/-- Truncation is the identity while offsets stay below `2^16`: for buffers
of at most 65535 bytes every in-bounds range survives `from_usize`. -/
theorem fromUsize_sound_small {s e len : Nat} (hse : s ≤ e) (hel : e ≤ len)
    (hlen : len ≤ 65535) : rangeSound (TextRange.fromUsize s e) len := by
  have hs : s % 65536 = s := Nat.mod_eq_of_lt (by omega)
  have he : e % 65536 = e := Nat.mod_eq_of_lt (by omega)
  exact ⟨by simp [TextRange.fromUsize, hs, he, hse],
         by simp [TextRange.fromUsize, he, hel]⟩

/-! ## SDP (`sdp.rs`) -/

/-- `Origin` (`sdp.rs`). -/
structure Origin where
  username : String
  sessionId : String
  sessionVersion : String
  unicastAddress : String
  deriving DecidableEq, Repr

/-- `Connection` (`sdp.rs`). -/
structure Connection where
  connectionAddress : String
  deriving DecidableEq, Repr

/-- `MediaDescription` (`sdp.rs`). `port` is a `u16`; `parseU16` keeps it
below `2^16`. -/
structure MediaDescription where
  mediaType : String
  port : Nat
  protocol : String
  formats : List String
  connection : Option Connection
  deriving DecidableEq, Repr

/-- `SessionDescription` (`sdp.rs`). -/
structure SessionDescription where
  origin : Origin
  sessionName : String
  connection : Option Connection
  mediaDescriptions : List MediaDescription
  deriving DecidableEq, Repr

/-- `parse_origin` (`sdp.rs`). -/
def parseOrigin (value : String) : Except SsbcError Origin :=
  let parts := splitWhitespace value
  if parts.length < 6 then
    .error (.ParseError "Invalid origin line")
  else
    .ok { username := parts.getD 0 "", sessionId := parts.getD 1 "",
          sessionVersion := parts.getD 2 "", unicastAddress := parts.getD 5 "" }

/-- `parse_connection` (`sdp.rs`). -/
def parseConnection (value : String) : Except SsbcError Connection :=
  let parts := splitWhitespace value
  if parts.length < 3 then
    .error (.ParseError "Invalid connection line")
  else
    .ok { connectionAddress := parts.getD 2 "" }

/-- `parse_media_description` (`sdp.rs`).  The Rust function receives the
full line list and a mutable index but ignores both (`_lines`, `_index`) and
always returns `connection: None`. -/
def parseMediaDescription (value : String) : Except SsbcError MediaDescription :=
  let parts := splitWhitespace value
  if parts.length < 4 then
    .error (.ParseError "Invalid media line")
  else
    match parseU16 (parts.getD 1 "") with
    | none => .error (.ParseError "Invalid port in media line")
    | some port =>
      .ok { mediaType := parts.getD 0 "", port := port,
            protocol := parts.getD 2 "", formats := parts.drop 3,
            connection := none }

/-- The initial `SessionDescription` built at the top of
`SessionDescription::parse`. -/
def initialSession : SessionDescription :=
  { origin := { username := "-", sessionId := "0", sessionVersion := "0",
                unicastAddress := "127.0.0.1" },
    sessionName := "SSBC", connection := none, mediaDescriptions := [] }

/-- One iteration of the `while` loop in `SessionDescription::parse`:
lines whose second character is not `=` are skipped; `o=`, `s=`, `c=`, `m=`
update the session; anything else is ignored.  (`parse_media_description`
never advances the index, so the loop is a left fold over the lines.) -/
def processSdpLine (s : SessionDescription) (line : String) :
    Except SsbcError SessionDescription :=
  if line.data.length < 2 ∨ line.data.getD 1 ' ' ≠ '=' then
    .ok s
  else
    let field : String := ⟨line.data.take 2⟩
    let value := rustTrim ⟨line.data.drop 2⟩
    if field = "o=" then do
      let o ← parseOrigin value
      .ok { s with origin := o }
    else if field = "s=" then
      .ok { s with sessionName := value }
    else if field = "c=" then do
      let c ← parseConnection value
      .ok { s with connection := some c }
    else if field = "m=" then do
      let m ← parseMediaDescription value
      .ok { s with mediaDescriptions := s.mediaDescriptions ++ [m] }
    else
      .ok s

/-- `SessionDescription::parse` (`sdp.rs`). -/
def SessionDescription.parse (sdp : String) : Except SsbcError SessionDescription :=
  (rustLines sdp).foldlM processSdpLine initialSession

/-- Helper for `change_media_port`: update the `port` of element `i`,
leaving the list unchanged when `i` is out of bounds (Rust
`Vec::get_mut` returning `None`). -/
def setMediaPort : List MediaDescription → Nat → Nat → List MediaDescription
  | [], _, _ => []
  | m :: rest, 0, p => { m with port := p } :: rest
  | m :: rest, Nat.succ n, p => m :: setMediaPort rest n p

/-- `SessionDescription::change_media_port` (`sdp.rs`). -/
def SessionDescription.changeMediaPort (s : SessionDescription)
    (mediaIndex newPort : Nat) : SessionDescription :=
  { s with mediaDescriptions := setMediaPort s.mediaDescriptions mediaIndex newPort }

theorem setMediaPort_length (l : List MediaDescription) (i p : Nat) :
    (setMediaPort l i p).length = l.length := by
  induction l generalizing i with
  | nil => rfl
  | cons m rest ih =>
    cases i with
    | zero => rfl
    | succ n => simpa [setMediaPort] using ih n

theorem setMediaPort_oob (l : List MediaDescription) (i p : Nat)
    (h : l.length ≤ i) : setMediaPort l i p = l := by
  induction l generalizing i with
  | nil => rfl
  | cons m rest ih =>
    cases i with
    | zero => simp at h
    | succ n =>
      simp only [setMediaPort]
      rw [ih n (by simpa using h)]

theorem setMediaPort_get?_ne (l : List MediaDescription) (i p j : Nat)
    (h : j ≠ i) : (setMediaPort l i p).get? j = l.get? j := by
  induction l generalizing i j with
  | nil => rfl
  | cons m rest ih =>
    cases i with
    | zero =>
      cases j with
      | zero => omega
      | succ jn => rfl
    | succ n =>
      cases j with
      | zero => rfl
      | succ jn => simpa [setMediaPort] using ih n jn (by omega)

theorem setMediaPort_get?_eq (l : List MediaDescription) (i p : Nat)
    (h : i < l.length) :
    (setMediaPort l i p).get? i = some { l.get ⟨i, h⟩ with port := p } := by
  induction l generalizing i with
  | nil => simp at h
  | cons m rest ih =>
    cases i with
    | zero => rfl
    | succ n => simpa [setMediaPort] using ih n (by simpa using h)

/-! ## Claim theorems on ranges and SDP -/

/-- C1: the claim asserts that every parsed range `R` over a buffer `B`
satisfies `R.start ≤ R.end ≤ |B|` for all buffers up to the configured
`max_message_size` (default 64 MiB).  The code truncates `usize` offsets to
16 bits in `TextRange::from_usize`, so the invariant breaks on any
successfully parsed message longer than 65535 bytes: for a message of length
70000 whose body starts at offset 60000 (both within the default limits) the
stored body range is `(60000, 4464)` with `start > end`. -/
theorem c1_textRange_truncation_breaks_range_soundness :
    (60000 ≤ 70000 ∧ 70000 ≤ MAX_MESSAGE_SIZE) ∧
    parseBodyRange 60000 70000 = { start := 60000, stop := 4464 } ∧
    ¬ rangeSound (parseBodyRange 60000 70000) 70000 := by
  refine ⟨⟨by norm_num, by norm_num [MAX_MESSAGE_SIZE]⟩, by decide, by decide⟩

/-- C4: the claim states that a `c=` line appearing after an `m=` line is
attached to that media description (overriding the session-level connection
for that media) while the session-level connection recorded before the first
`m=` line is left unchanged.  The code does neither: `parse_media_description`
ignores the following lines and always stores `connection: None`, and the
main loop routes every `c=` line — also one after an `m=` line — into the
session-level `connection` field, overwriting the earlier value.  On the SDP
below the session connection ends up `2.2.2.2` (not `1.1.1.1`) and the media
description carries no connection. -/
theorem c4_sdp_media_connection_not_attached :
    SessionDescription.parse
        "v=0\r\no=- 1 1 IN IP4 10.0.0.1\r\ns=Test\r\nc=IN IP4 1.1.1.1\r\nm=audio 49170 RTP/AVP 0\r\nc=IN IP4 2.2.2.2\r\n" =
      .ok { origin := { username := "-", sessionId := "1",
                        sessionVersion := "1", unicastAddress := "10.0.0.1" },
            sessionName := "Test",
            connection := some { connectionAddress := "2.2.2.2" },
            mediaDescriptions := [{ mediaType := "audio", port := 49170,
                                    protocol := "RTP/AVP", formats := ["0"],
                                    connection := none }] } := by
  rfl

/-- C10: `change_media_port(i, p)` with `i` out of range returns without
error and leaves the `SessionDescription` unchanged; in range it changes
only `media_descriptions[i].port` — all session-level fields, all other
media descriptions, and every other field of `media_descriptions[i]` are
untouched. -/
theorem c10_change_media_port_safe (sd : SessionDescription) (i p : Nat) :
    (sd.mediaDescriptions.length ≤ i → sd.changeMediaPort i p = sd) ∧
    (sd.changeMediaPort i p).origin = sd.origin ∧
    (sd.changeMediaPort i p).sessionName = sd.sessionName ∧
    (sd.changeMediaPort i p).connection = sd.connection ∧
    (sd.changeMediaPort i p).mediaDescriptions.length =
      sd.mediaDescriptions.length ∧
    (∀ j, j ≠ i → (sd.changeMediaPort i p).mediaDescriptions.get? j =
      sd.mediaDescriptions.get? j) ∧
    (∀ h : i < sd.mediaDescriptions.length,
      (sd.changeMediaPort i p).mediaDescriptions.get? i =
        some { sd.mediaDescriptions.get ⟨i, h⟩ with port := p }) := by
  refine ⟨fun h => ?_, rfl, rfl, rfl, setMediaPort_length _ _ _,
          fun j hj => setMediaPort_get?_ne _ _ _ _ hj,
          fun h => setMediaPort_get?_eq _ _ _ h⟩
  show ({ sd with mediaDescriptions := setMediaPort sd.mediaDescriptions i p } :
      SessionDescription) = sd
  rw [setMediaPort_oob _ _ _ h]

/-- Witness for C10 at a concrete session: index 1 is out of range (the
session has one media description) so the call is the identity, and index 0
changes exactly the port. -/
theorem c10_change_media_port_safe_witness :
    (SessionDescription.changeMediaPort
        { origin := { username := "-", sessionId := "0", sessionVersion := "0",
                      unicastAddress := "10.0.0.1" },
          sessionName := "t", connection := none,
          mediaDescriptions := [{ mediaType := "audio", port := 5004,
                                  protocol := "RTP/AVP", formats := ["0"],
                                  connection := none }] } 1 6000 =
      { origin := { username := "-", sessionId := "0", sessionVersion := "0",
                    unicastAddress := "10.0.0.1" },
        sessionName := "t", connection := none,
        mediaDescriptions := [{ mediaType := "audio", port := 5004,
                                protocol := "RTP/AVP", formats := ["0"],
                                connection := none }] }) ∧
    (SessionDescription.changeMediaPort
        { origin := { username := "-", sessionId := "0", sessionVersion := "0",
                      unicastAddress := "10.0.0.1" },
          sessionName := "t", connection := none,
          mediaDescriptions := [{ mediaType := "audio", port := 5004,
                                  protocol := "RTP/AVP", formats := ["0"],
                                  connection := none }] } 0 6000).mediaDescriptions.get? 0 =
      some { mediaType := "audio", port := 6000, protocol := "RTP/AVP",
             formats := ["0"], connection := none } := by
  constructor
  · exact (c10_change_media_port_safe _ 1 6000).1 (by decide)
  · exact (c10_change_media_port_safe _ 0 6000).2.2.2.2.2.2 (by decide)

/-! ## Association lists with `HashMap` semantics

`b2bua.rs` keeps its `calls`, `call_pairs` and `transactions` in `HashMap`s.
None of the verified properties depend on iteration order, so the maps are
modelled as association lists: `insert` replaces an existing binding and
otherwise appends, `remove` drops the binding, `update` applies a function
through `get_mut`. -/

/-- `HashMap::get`. -/
def alistGet {α : Type} (l : List (String × α)) (k : String) : Option α :=
  (l.find? (fun p => p.1 = k)).map (·.2)

/-- `HashMap::insert`. -/
def alistInsert {α : Type} (l : List (String × α)) (k : String) (v : α) :
    List (String × α) :=
  if l.any (fun p => p.1 = k) then
    l.map (fun p => if p.1 = k then (k, v) else p)
  else
    l ++ [(k, v)]

/-- `HashMap::remove` (ignoring the returned value). -/
def alistRemove {α : Type} (l : List (String × α)) (k : String) :
    List (String × α) :=
  l.filter (fun p => p.1 ≠ k)

/-- `HashMap::get_mut` followed by a mutation. -/
def alistUpdate {α : Type} (l : List (String × α)) (k : String) (f : α → α) :
    List (String × α) :=
  l.map (fun p => if p.1 = k then (p.1, f p.2) else p)

theorem alistGet_nil {α : Type} (k : String) : alistGet ([] : List (String × α)) k = none := rfl

theorem alistGet_cons {α : Type} (p : String × α) (l : List (String × α))
    (k : String) :
    alistGet (p :: l) k = if p.1 = k then some p.2 else alistGet l k := by
  unfold alistGet
  rw [List.find?_cons]
  by_cases h : p.1 = k <;> simp [h]

theorem alistGet_map_replace_ne {α : Type} (l : List (String × α))
    (k : String) (v : α) (k' : String) (hk : ¬ k' = k) :
    alistGet (l.map fun p => if p.1 = k then (k, v) else p) k' = alistGet l k' := by
  induction l with
  | nil => rfl
  | cons q rs ih =>
    by_cases hq : q.1 = k
    · rw [List.map_cons, if_pos hq, alistGet_cons, alistGet_cons,
          if_neg (show ¬ ((k, v) : String × α).1 = k' from fun h => hk h.symm),
          if_neg (show ¬ q.1 = k' from hq ▸ fun h => hk h.symm), ih]
    · rw [List.map_cons, if_neg hq, alistGet_cons, alistGet_cons, ih]

theorem alistGet_map_replace_self {α : Type} (l : List (String × α))
    (k : String) (v : α) (hmem : (l.any fun p => p.1 = k) = true) :
    alistGet (l.map fun p => if p.1 = k then (k, v) else p) k = some v := by
  induction l with
  | nil => simp at hmem
  | cons q rs ih =>
    by_cases hq : q.1 = k
    · rw [List.map_cons, if_pos hq, alistGet_cons,
          if_pos (show ((k, v) : String × α).1 = k from rfl)]
    · have hrs : (rs.any fun p => p.1 = k) = true := by
        simpa [List.any_cons, hq] using hmem
      rw [List.map_cons, if_neg hq, alistGet_cons, if_neg hq, ih hrs]

theorem alistGet_append_single {α : Type} (l : List (String × α))
    (k : String) (v : α) (k' : String)
    (hnone : ¬ (l.any fun p => p.1 = k) = true) :
    alistGet (l ++ [(k, v)]) k' = if k' = k then some v else alistGet l k' := by
  induction l with
  | nil =>
    rw [List.nil_append, alistGet_cons, alistGet_nil]
    by_cases hk : k' = k
    · rw [if_pos (show ((k, v) : String × α).1 = k' from hk ▸ rfl), if_pos hk]
    · rw [if_neg (show ¬ ((k, v) : String × α).1 = k' from fun h => hk h.symm),
          if_neg hk]
  | cons q rs ih =>
    have hq : ¬ q.1 = k := by
      intro h; exact hnone (by simp [List.any_cons, h])
    have hrs : ¬ (rs.any fun p => p.1 = k) = true := by
      intro h; exact hnone (by simp [List.any_cons, h])
    rw [List.cons_append, alistGet_cons, alistGet_cons, ih hrs]
    by_cases hqk' : q.1 = k'
    · have hk : ¬ k' = k := fun h => hq (h ▸ hqk')
      rw [if_pos hqk', if_neg hk, if_pos hqk']
    · rw [if_neg hqk']
      by_cases hk : k' = k
      · rw [if_pos hk, if_pos hk]
      · rw [if_neg hk, if_neg hk, if_neg hqk']

theorem alistGet_insert {α : Type} (l : List (String × α)) (k : String) (v : α)
    (k' : String) :
    alistGet (alistInsert l k v) k' = if k' = k then some v else alistGet l k' := by
  unfold alistInsert
  by_cases hmem : (l.any fun p => p.1 = k) = true
  · rw [if_pos hmem]
    by_cases hk : k' = k
    · rw [if_pos hk, hk, alistGet_map_replace_self l k v hmem]
    · rw [if_neg hk, alistGet_map_replace_ne l k v k' hk]
  · rw [if_neg hmem, alistGet_append_single l k v k' hmem]

theorem alistGet_update {α : Type} (l : List (String × α)) (k : String)
    (f : α → α) (k' : String) :
    alistGet (alistUpdate l k f) k' =
      if k' = k then (alistGet l k).map f else alistGet l k' := by
  unfold alistUpdate
  induction l with
  | nil => by_cases hk : k' = k <;> simp [alistGet_nil, hk]
  | cons p rest ih =>
    rw [List.map_cons]
    by_cases hp : p.1 = k
    · rw [if_pos hp]
      simp only [alistGet_cons, ih]
      by_cases hk : k' = k
      · have hpk' : p.1 = k' := hp.trans hk.symm
        simp [hpk', hk, hp]
      · have hpk' : ¬ p.1 = k' := fun h => hk ((hp.symm.trans h).symm)
        simp [hpk', hk]
    · rw [if_neg hp]
      simp only [alistGet_cons, ih]
      by_cases hpk' : p.1 = k'
      · have hk : ¬ k' = k := fun h => hp (h ▸ hpk')
        simp [hpk', hk]
      · by_cases hk : k' = k
        · simp [hpk', hk, hp]
        · simp [hpk', hk]

theorem alistGet_remove {α : Type} (l : List (String × α)) (k k' : String) :
    alistGet (alistRemove l k) k' = if k' = k then none else alistGet l k' := by
  unfold alistRemove
  induction l with
  | nil => by_cases hk : k' = k <;> simp [alistGet_nil, hk]
  | cons p rest ih =>
    rw [List.filter_cons]
    by_cases hp : p.1 = k
    · have : (decide (p.1 ≠ k)) = false := by simp [hp]
      rw [this, if_neg (by simp)]
      rw [ih]
      by_cases hk : k' = k
      · simp [hk]
      · have hpk' : ¬ p.1 = k' := hp ▸ fun h => hk h.symm
        simp [hk, alistGet_cons, hpk']
    · have : (decide (p.1 ≠ k)) = true := by simp [hp]
      rw [this, if_pos rfl]
      rw [alistGet_cons, alistGet_cons, ih]
      by_cases hpk' : p.1 = k'
      · have hk : ¬ k' = k := fun h => hp (h ▸ hpk')
        simp [hpk', hk]
      · simp [hpk']

/-! ## B2BUA call manager (`b2bua.rs`)

Wall-clock reads (`current_timestamp()`) and random identifier generation
(`generate_tag()`, `generate_call_id()`) are modelled as explicit parameters
of the operations. -/

/-- `CallState` (`b2bua.rs`). -/
inductive CallState where
  | Idle
  | Calling
  | Proceeding
  | Connecting
  | Connected
  | Disconnecting
  | Terminated
  | Failed (reason : String)
  deriving DecidableEq, Repr

/-- `TransactionState` (`b2bua.rs`). -/
inductive TransactionState where
  | Calling
  | Proceeding
  | Completed
  | Confirmed
  | Terminated
  deriving DecidableEq, Repr

/-- `Dialog` (`b2bua.rs`). `u32`/`u64` fields are `Nat`s (no arithmetic that
could overflow is performed on them by the verified operations). -/
structure Dialog where
  callId : String
  localTag : String
  remoteTag : Option String
  localUri : String
  remoteUri : String
  localCseq : Nat
  remoteCseq : Nat
  state : CallState
  createdAt : Nat
  lastActivity : Nat
  routeSet : List String
  contact : Option String
  sdp : Option SessionDescription
  deriving DecidableEq, Repr

/-- `Transaction` (`b2bua.rs`). -/
structure Transaction where
  branchId : String
  method : String
  state : TransactionState
  createdAt : Nat
  lastResponseCode : Option Nat
  retransmissionCount : Nat
  timeoutAt : Option Nat
  deriving DecidableEq, Repr

/-- `MediaRelay` (`b2bua.rs`). -/
structure MediaRelay where
  localRtpPort : Nat
  localRtcpPort : Nat
  remoteRtpAddress : String
  remoteRtpPort : Nat
  codecInfo : List String
  bytesSent : Nat
  bytesReceived : Nat
  packetsSent : Nat
  packetsReceived : Nat
  deriving DecidableEq, Repr

/-- `CallLeg` (`b2bua.rs`). -/
structure CallLeg where
  dialog : Dialog
  transactions : List (String × Transaction)
  mediaRelay : Option MediaRelay
  peerLegId : Option String
  deriving DecidableEq, Repr

/-- `B2buaManager` (`b2bua.rs`). -/
structure B2buaManager where
  calls : List (String × CallLeg)
  callPairs : List (String × String)
  transactions : List (String × String)
  maxCalls : Nat
  callTimeoutSeconds : Nat
  transactionTimeoutSeconds : Nat
  deriving DecidableEq, Repr

/-- `B2buaManager::new`. -/
def B2buaManager.new (maxCalls callTimeoutSeconds transactionTimeoutSeconds : Nat) :
    B2buaManager :=
  { calls := [], callPairs := [], transactions := [],
    maxCalls := maxCalls, callTimeoutSeconds := callTimeoutSeconds,
    transactionTimeoutSeconds := transactionTimeoutSeconds }

/-- `B2buaManager::handle_invite`.  `now` models `current_timestamp()` and
`localTag` the result of `generate_tag()`. -/
def B2buaManager.handleInvite (m : B2buaManager) (callId fromUri toUri fromTag :
    String) (cseq : Nat) (sdp : Option SessionDescription) (now : Nat)
    (localTag : String) : B2buaManager × Except SsbcError String :=
  if m.calls.length ≥ m.maxCalls then
    (m, .error (.ResourceError m.calls.length m.maxCalls))
  else
    let dialog : Dialog :=
      { callId := callId, localTag := localTag, remoteTag := some fromTag,
        localUri := toUri, remoteUri := fromUri, localCseq := 1,
        remoteCseq := cseq, state := .Calling, createdAt := now,
        lastActivity := now, routeSet := [], contact := none, sdp := sdp }
    let leg : CallLeg :=
      { dialog := dialog, transactions := [], mediaRelay := none,
        peerLegId := none }
    ({ m with calls := alistInsert m.calls callId leg }, .ok callId)

/-- `B2buaManager::create_outgoing_call`.  `outgoingCallId` models the result
of `generate_call_id()` and `localTag` the result of `generate_tag()`. -/
def B2buaManager.createOutgoingCall (m : B2buaManager)
    (incomingCallId destinationUri : String) (sdp : Option SessionDescription)
    (outgoingCallId : String) (now : Nat) (localTag : String) :
    B2buaManager × Except SsbcError String :=
  match alistGet m.calls incomingCallId with
  | none =>
    (m, .error (.StateError "create_outgoing_call" "Incoming call not found"))
  | some _ =>
    let dialog : Dialog :=
      { callId := outgoingCallId, localTag := localTag, remoteTag := none,
        localUri := "sip:b2bua@localhost", remoteUri := destinationUri,
        localCseq := 1, remoteCseq := 0, state := .Calling, createdAt := now,
        lastActivity := now, routeSet := [], contact := none, sdp := sdp }
    let outgoingLeg : CallLeg :=
      { dialog := dialog, transactions := [], mediaRelay := none,
        peerLegId := some incomingCallId }
    let calls1 := alistInsert m.calls outgoingCallId outgoingLeg
    let pairs1 :=
      alistInsert (alistInsert m.callPairs incomingCallId outgoingCallId)
        outgoingCallId incomingCallId
    let calls2 := alistUpdate calls1 incomingCallId
      (fun leg => { leg with peerLegId := some outgoingCallId })
    ({ m with calls := calls2, callPairs := pairs1 }, .ok outgoingCallId)

/-- `B2buaManager::handle_response`.  The `&mut` mutations of `remote_tag`
and `sdp` happen before the status-code match, so they survive into the
returned manager even when the status code is rejected. -/
def B2buaManager.handleResponse (m : B2buaManager) (callId : String)
    (statusCode : Nat) (toTag : Option String) (sdp : Option SessionDescription)
    (now : Nat) : B2buaManager × Except SsbcError Unit :=
  match alistGet m.calls callId with
  | none =>
    (m, .error (.StateError "handle_response" "Call not found"))
  | some leg =>
    let leg := match toTag with
      | some tag => { leg with dialog := { leg.dialog with remoteTag := some tag } }
      | none => leg
    let leg := match sdp with
      | some sessionDesc => { leg with dialog := { leg.dialog with sdp := some sessionDesc } }
      | none => leg
    if 100 ≤ statusCode ∧ statusCode ≤ 199 then
      let leg := { leg with dialog := { leg.dialog with state := CallState.Proceeding, lastActivity := now } }
      ({ m with calls := alistInsert m.calls callId leg }, .ok ())
    else if 200 ≤ statusCode ∧ statusCode ≤ 299 then
      let leg := { leg with dialog := { leg.dialog with state := CallState.Connecting, lastActivity := now } }
      ({ m with calls := alistInsert m.calls callId leg }, .ok ())
    else if 300 ≤ statusCode ∧ statusCode ≤ 699 then
      let leg := { leg with dialog := { leg.dialog with state := CallState.Failed ("Response " ++ toString statusCode), lastActivity := now } }
      ({ m with calls := alistInsert m.calls callId leg }, .ok ())
    else
      let e := SsbcError.StateError "handle_response" ("Invalid status code: " ++ toString statusCode)
      ({ m with calls := alistInsert m.calls callId leg }, .error e)

/-- `B2buaManager::handle_ack`. -/
def B2buaManager.handleAck (m : B2buaManager) (callId : String) (now : Nat) :
    B2buaManager × Except SsbcError Unit :=
  match alistGet m.calls callId with
  | none =>
    (m, .error (.StateError "handle_ack" "Call not found"))
  | some leg =>
    if leg.dialog.state ≠ CallState.Connecting then
      (m, .error (.StateError "handle_ack" "Invalid state for ACK"))
    else
      let leg := { leg with dialog := { leg.dialog with state := CallState.Connected, lastActivity := now } }
      ({ m with calls := alistInsert m.calls callId leg }, .ok ())

/-- `B2buaManager::handle_bye`. -/
def B2buaManager.handleBye (m : B2buaManager) (callId : String) (now : Nat) :
    B2buaManager × Except SsbcError (Option String) :=
  let peerCallId := alistGet m.callPairs callId
  let calls1 := alistUpdate m.calls callId
    (fun leg => { leg with dialog := { leg.dialog with state := CallState.Disconnecting, lastActivity := now } })
  ({ m with calls := calls1 }, .ok peerCallId)

/-- `B2buaManager::terminate_call`. -/
def B2buaManager.terminateCall (m : B2buaManager) (callId : String) :
    B2buaManager × Except SsbcError (Option String) :=
  let peerCallId := alistGet m.callPairs callId
  let m := { m with calls := alistRemove m.calls callId }
  let m := { m with callPairs := alistRemove m.callPairs callId }
  let m := match peerCallId with
    | some peerId => { m with callPairs := alistRemove m.callPairs peerId }
    | none => m
  let m := { m with transactions := m.transactions.filter (fun p => p.2 ≠ callId) }
  (m, .ok peerCallId)

/-! ## Pairing symmetry -/

/-- The spec invariant `call_pairs[a]==b ⇔ call_pairs[b]==a`. -/
def pairsSymmetric (pairs : List (String × String)) : Prop :=
  ∀ a b, alistGet pairs a = some b ↔ alistGet pairs b = some a

theorem pairsSymmetric_insert2 (pairs : List (String × String)) (inc out : String)
    (hsym : pairsSymmetric pairs) (hinc : alistGet pairs inc = none)
    (hout : alistGet pairs out = none) :
    pairsSymmetric (alistInsert (alistInsert pairs inc out) out inc) := by
  have gp : ∀ x, alistGet (alistInsert (alistInsert pairs inc out) out inc) x =
      if x = out then some inc else if x = inc then some out else alistGet pairs x := by
    intro x
    rw [alistGet_insert, alistGet_insert]
  intro a b
  rw [gp a, gp b]
  rcases eq_or_ne a out with hao | hao
  · rw [if_pos hao]
    rcases eq_or_ne b out with hbo | hbo
    · rw [if_pos hbo, hao, hbo]
    · rw [if_neg hbo]
      rcases eq_or_ne b inc with hbi | hbi
      · rw [if_pos hbi, hao, hbi]; simp
      · rw [if_neg hbi]
        constructor
        · intro h; injection h with h; exact absurd h.symm hbi
        · intro h
          rw [hao] at h
          have := (hsym b out).mp h
          rw [hout] at this; cases this
  · rw [if_neg hao]
    rcases eq_or_ne a inc with hai | hai
    · rw [if_pos hai]
      rcases eq_or_ne b out with hbo | hbo
      · rw [if_pos hbo, hai, hbo]; simp
      · rw [if_neg hbo]
        rcases eq_or_ne b inc with hbi | hbi
        · rw [if_pos hbi, hai, hbi]
        · rw [if_neg hbi]
          constructor
          · intro h; injection h with h; exact absurd h.symm hbo
          · intro h
            rw [hai] at h
            have := (hsym b inc).mp h
            rw [hinc] at this; cases this
    · rw [if_neg hai]
      rcases eq_or_ne b out with hbo | hbo
      · rw [if_pos hbo]
        constructor
        · intro h
          rw [hbo] at h
          have := (hsym a out).mp h
          rw [hout] at this; cases this
        · intro h; injection h with h; exact absurd h.symm hai
      · rw [if_neg hbo]
        rcases eq_or_ne b inc with hbi | hbi
        · rw [if_pos hbi]
          constructor
          · intro h
            rw [hbi] at h
            have := (hsym a inc).mp h
            rw [hinc] at this; cases this
          · intro h; injection h with h; exact absurd h.symm hao
        · rw [if_neg hbi]; exact hsym a b

theorem pairsSymmetric_remove_none (pairs : List (String × String)) (cid : String)
    (hsym : pairsSymmetric pairs) (hnone : alistGet pairs cid = none) :
    pairsSymmetric (alistRemove pairs cid) := by
  intro a b
  rw [alistGet_remove, alistGet_remove]
  rcases eq_or_ne a cid with hac | hac
  · rw [if_pos hac]
    rcases eq_or_ne b cid with hbc | hbc
    · rw [if_pos hbc]
      constructor <;> (intro h; cases h)
    · rw [if_neg hbc]
      constructor
      · intro h; cases h
      · intro h
        rw [hac] at h
        have := (hsym b cid).mp h
        rw [hnone] at this; cases this
  · rw [if_neg hac]
    rcases eq_or_ne b cid with hbc | hbc
    · rw [if_pos hbc]
      constructor
      · intro h
        rw [hbc] at h
        have := (hsym a cid).mp h
        rw [hnone] at this; cases this
      · intro h; cases h
    · rw [if_neg hbc]; exact hsym a b

theorem pairsSymmetric_remove_pair (pairs : List (String × String))
    (cid p : String) (hsym : pairsSymmetric pairs)
    (hp : alistGet pairs cid = some p) :
    pairsSymmetric (alistRemove (alistRemove pairs cid) p) := by
  have hpc : alistGet pairs p = some cid := (hsym cid p).mp hp
  have gp : ∀ x, alistGet (alistRemove (alistRemove pairs cid) p) x =
      if x = p then none else if x = cid then none else alistGet pairs x := by
    intro x
    rw [alistGet_remove, alistGet_remove]
  intro a b
  rw [gp a, gp b]
  rcases eq_or_ne a p with hap | hap
  · rw [if_pos hap]
    constructor
    · intro h; cases h
    · intro h
      rcases eq_or_ne b p with hbp | hbp
      · rw [if_pos hbp] at h; cases h
      · rw [if_neg hbp] at h
        rcases eq_or_ne b cid with hbc | hbc
        · rw [if_pos hbc] at h; cases h
        · rw [if_neg hbc] at h
          rw [hap] at h
          have := (hsym b p).mp h
          rw [hpc] at this
          injection this with this
          exact absurd this.symm hbc
  · rw [if_neg hap]
    rcases eq_or_ne a cid with hac | hac
    · rw [if_pos hac]
      constructor
      · intro h; cases h
      · intro h
        rcases eq_or_ne b p with hbp | hbp
        · rw [if_pos hbp] at h; cases h
        · rw [if_neg hbp] at h
          rcases eq_or_ne b cid with hbc | hbc
          · rw [if_pos hbc] at h; cases h
          · rw [if_neg hbc] at h
            rw [hac] at h
            have := (hsym b cid).mp h
            rw [hp] at this
            injection this with this
            exact absurd this.symm hbp
    · rw [if_neg hac]
      rcases eq_or_ne b p with hbp | hbp
      · rw [if_pos hbp]
        constructor
        · intro h
          rw [hbp] at h
          have := (hsym a p).mp h
          rw [hpc] at this
          injection this with this
          exact absurd this.symm hac
        · intro h; cases h
      · rw [if_neg hbp]
        rcases eq_or_ne b cid with hbc | hbc
        · rw [if_pos hbc]
          constructor
          · intro h
            rw [hbc] at h
            have := (hsym a cid).mp h
            rw [hp] at this
            injection this with this
            exact absurd this.symm hap
          · intro h; cases h
        · rw [if_neg hbc]; exact hsym a b

theorem handleInvite_callPairs (m : B2buaManager) (a b c d : String) (e : Nat)
    (f : Option SessionDescription) (g : Nat) (h : String) :
    (m.handleInvite a b c d e f g h).1.callPairs = m.callPairs := by
  unfold B2buaManager.handleInvite
  split <;> rfl

theorem handleResponse_callPairs (m : B2buaManager) (a : String) (b : Nat)
    (c : Option String) (d : Option SessionDescription) (e : Nat) :
    (m.handleResponse a b c d e).1.callPairs = m.callPairs := by
  unfold B2buaManager.handleResponse
  rcases alistGet m.calls a with _ | leg
  · rfl
  · simp only
    split_ifs <;> rfl

theorem handleAck_callPairs (m : B2buaManager) (a : String) (b : Nat) :
    (m.handleAck a b).1.callPairs = m.callPairs := by
  unfold B2buaManager.handleAck
  rcases alistGet m.calls a with _ | leg
  · rfl
  · simp only
    split_ifs <;> rfl

theorem handleBye_callPairs (m : B2buaManager) (a : String) (b : Nat) :
    (m.handleBye a b).1.callPairs = m.callPairs := rfl

/-- The operations of the call manager, with clock reads and generated
identifiers made explicit. -/
inductive B2buaOp where
  | invite (callId fromUri toUri fromTag : String) (cseq : Nat)
      (sdp : Option SessionDescription) (now : Nat) (localTag : String)
  | createOutgoing (incomingCallId destinationUri : String)
      (sdp : Option SessionDescription) (outgoingCallId : String) (now : Nat)
      (localTag : String)
  | response (callId : String) (statusCode : Nat) (toTag : Option String)
      (sdp : Option SessionDescription) (now : Nat)
  | ack (callId : String) (now : Nat)
  | bye (callId : String) (now : Nat)
  | terminate (callId : String)

/-- Run one manager operation, keeping the state and discarding the result. -/
def B2buaManager.applyOp (m : B2buaManager) : B2buaOp → B2buaManager
  | .invite a b c d e f g h => (m.handleInvite a b c d e f g h).1
  | .createOutgoing a b c d e f => (m.createOutgoingCall a b c d e f).1
  | .response a b c d e => (m.handleResponse a b c d e).1
  | .ack a b => (m.handleAck a b).1
  | .bye a b => (m.handleBye a b).1
  | .terminate a => (m.terminateCall a).1

/-- Precondition under which pairing symmetry is preserved: an outgoing leg
is only created for an incoming leg that is not yet paired, and the
generated outgoing Call-ID is fresh.  (The code does not enforce this; see
the counterexample.) -/
def B2buaOp.pre (m : B2buaManager) : B2buaOp → Prop
  | .createOutgoing inc _ _ out _ _ =>
      alistGet m.callPairs inc = none ∧ alistGet m.callPairs out = none ∧
      out ≠ inc
  | _ => True

/-- A manager state reached by a legal operation sequence on which the
pairing map is not symmetric: `create_outgoing_call` is invoked twice for
the same incoming leg `"a"` (the code performs no check against this),
leaving the stale reverse entry `"b" ↦ "a"` while `"a" ↦ "c"`. -/
def c6BreachManager : B2buaManager :=
  let m0 := B2buaManager.new 100 3600 32
  let m1 := (m0.handleInvite "a" "sip:alice@x" "sip:bob@x" "t1" 1 none 0 "lt1").1
  let m2 := (m1.createOutgoingCall "a" "sip:c@x" none "b" 0 "lt2").1
  (m2.createOutgoingCall "a" "sip:d@x" none "c" 0 "lt3").1

/-- C6 (counterexample): after `handle_invite("a")`,
`create_outgoing_call("a", ...) = "b"`, `create_outgoing_call("a", ...) = "c"`
— each operation succeeding — the pairing map holds `call_pairs["b"] = "a"`
but `call_pairs["a"] = "c"`, so `call_pairs[a]==b ⇔ call_pairs[b]==a` fails:
the map is not symmetric after every operation. -/
theorem c6_pairing_symmetry_counterexample :
    alistGet c6BreachManager.callPairs "b" = some "a" ∧
    alistGet c6BreachManager.callPairs "a" = some "c" ∧
    ¬ pairsSymmetric c6BreachManager.callPairs := by
  refine ⟨by decide, by decide, ?_⟩
  intro hsym
  have h1 : alistGet c6BreachManager.callPairs "b" = some "a" := by decide
  have h2 := (hsym "b" "a").mp h1
  have h3 : alistGet c6BreachManager.callPairs "a" = some "c" := by decide
  rw [h3] at h2
  injection h2 with h2
  exact absurd h2 (by decide)

/-- C6 (amended): pairing symmetry is an invariant of every manager
operation provided `create_outgoing_call` is only applied to an incoming leg
that is not yet paired and the generated outgoing Call-ID is fresh; under
that precondition, after `create_outgoing_call(a,...)` returns `b` both
`peer(a)==b` and `peer(b)==a` hold, and after `terminate_call(a)` neither
`a`'s nor its former peer's entry remains. -/
theorem c6_pairing_symmetry_amended (m : B2buaManager) (op : B2buaOp)
    (hsym : pairsSymmetric m.callPairs) (hpre : op.pre m) :
    pairsSymmetric (m.applyOp op).callPairs ∧
    (∀ inc dest sdp out now tag,
        op = B2buaOp.createOutgoing inc dest sdp out now tag →
        alistGet m.calls inc ≠ none →
        alistGet (m.applyOp op).callPairs inc = some out ∧
        alistGet (m.applyOp op).callPairs out = some inc) ∧
    (∀ cid, op = B2buaOp.terminate cid →
        alistGet (m.applyOp op).callPairs cid = none ∧
        ∀ peer, alistGet m.callPairs cid = some peer →
          alistGet (m.applyOp op).callPairs peer = none) := by
  cases op with
  | invite a b c d e f g h =>
    refine ⟨?_, ?_, ?_⟩
    · show pairsSymmetric (m.handleInvite a b c d e f g h).1.callPairs
      rw [handleInvite_callPairs]; exact hsym
    · intro _ _ _ _ _ _ heq; cases heq
    · intro _ heq; cases heq
  | createOutgoing inc dest sdp out now tag =>
    obtain ⟨hinc, hout, hne⟩ := hpre
    cases hcall : alistGet m.calls inc with
    | none =>
      have happ : (m.createOutgoingCall inc dest sdp out now tag).1 = m := by
        simp [B2buaManager.createOutgoingCall, hcall]
      refine ⟨?_, ?_, ?_⟩
      · show pairsSymmetric (m.createOutgoingCall inc dest sdp out now tag).1.callPairs
        rw [happ]; exact hsym
      · intro inc' dest' sdp' out' now' tag' heq hne'
        injection heq with h1 h2 h3 h4 h5 h6
        rw [← h1] at hne'
        exact absurd hcall hne'
      · intro _ heq; cases heq
    | some leg =>
      have happ : (m.createOutgoingCall inc dest sdp out now tag).1.callPairs =
          alistInsert (alistInsert m.callPairs inc out) out inc := by
        simp [B2buaManager.createOutgoingCall, hcall]
      refine ⟨?_, ?_, ?_⟩
      · show pairsSymmetric (m.createOutgoingCall inc dest sdp out now tag).1.callPairs
        rw [happ]
        exact pairsSymmetric_insert2 _ inc out hsym hinc hout
      · intro inc' dest' sdp' out' now' tag' heq hne'
        injection heq with h1 h2 h3 h4 h5 h6
        rw [← h1, ← h4]
        constructor
        · show alistGet (m.createOutgoingCall inc dest sdp out now tag).1.callPairs
            inc = some out
          rw [happ, alistGet_insert, alistGet_insert,
              if_neg (show ¬ inc = out from fun hh => hne hh.symm), if_pos rfl]
        · show alistGet (m.createOutgoingCall inc dest sdp out now tag).1.callPairs
            out = some inc
          rw [happ, alistGet_insert, if_pos rfl]
      · intro _ heq; cases heq
  | response a b c d e =>
    refine ⟨?_, ?_, ?_⟩
    · show pairsSymmetric (m.handleResponse a b c d e).1.callPairs
      rw [handleResponse_callPairs]; exact hsym
    · intro _ _ _ _ _ _ heq; cases heq
    · intro _ heq; cases heq
  | ack a b =>
    refine ⟨?_, ?_, ?_⟩
    · show pairsSymmetric (m.handleAck a b).1.callPairs
      rw [handleAck_callPairs]; exact hsym
    · intro _ _ _ _ _ _ heq; cases heq
    · intro _ heq; cases heq
  | bye a b =>
    refine ⟨?_, ?_, ?_⟩
    · show pairsSymmetric (m.handleBye a b).1.callPairs
      rw [handleBye_callPairs]; exact hsym
    · intro _ _ _ _ _ _ heq; cases heq
    · intro _ heq; cases heq
  | terminate cid0 =>
    have happN : alistGet m.callPairs cid0 = none →
        (m.terminateCall cid0).1.callPairs = alistRemove m.callPairs cid0 := by
      intro h; simp [B2buaManager.terminateCall, h]
    have happS : ∀ p, alistGet m.callPairs cid0 = some p →
        (m.terminateCall cid0).1.callPairs =
          alistRemove (alistRemove m.callPairs cid0) p := by
      intro p h; simp [B2buaManager.terminateCall, h]
    refine ⟨?_, ?_, ?_⟩
    · show pairsSymmetric (m.terminateCall cid0).1.callPairs
      cases hpeer : alistGet m.callPairs cid0 with
      | none =>
        rw [happN hpeer]
        exact pairsSymmetric_remove_none _ _ hsym hpeer
      | some p =>
        rw [happS p hpeer]
        exact pairsSymmetric_remove_pair _ _ _ hsym hpeer
    · intro _ _ _ _ _ _ heq; cases heq
    · intro cid heq
      injection heq with h1
      rw [← h1]
      constructor
      · show alistGet (m.terminateCall cid0).1.callPairs cid0 = none
        cases hpeer : alistGet m.callPairs cid0 with
        | none => rw [happN hpeer, alistGet_remove, if_pos rfl]
        | some p =>
          rw [happS p hpeer, alistGet_remove, alistGet_remove]
          by_cases hcp : cid0 = p
          · rw [if_pos hcp]
          · rw [if_neg hcp, if_pos rfl]
      · intro peer hpeer
        show alistGet (m.terminateCall cid0).1.callPairs peer = none
        rw [happS peer hpeer, alistGet_remove, if_pos rfl]

/-- Witness for C6 (amended): from the symmetric state reached by
`handle_invite("a")`, a fresh `create_outgoing_call("a",...) = "b"` keeps the
pairing map symmetric and establishes `peer("a")="b"` and `peer("b")="a"`. -/
theorem c6_pairing_symmetry_amended_witness :
    pairsSymmetric ((((B2buaManager.new 100 3600 32).handleInvite "a"
        "sip:alice@x" "sip:bob@x" "t1" 1 none 0 "lt1").1).applyOp
        (B2buaOp.createOutgoing "a" "sip:c@x" none "b" 0 "lt2")).callPairs ∧
    alistGet ((((B2buaManager.new 100 3600 32).handleInvite "a"
        "sip:alice@x" "sip:bob@x" "t1" 1 none 0 "lt1").1).applyOp
        (B2buaOp.createOutgoing "a" "sip:c@x" none "b" 0 "lt2")).callPairs "a" =
      some "b" ∧
    alistGet ((((B2buaManager.new 100 3600 32).handleInvite "a"
        "sip:alice@x" "sip:bob@x" "t1" 1 none 0 "lt1").1).applyOp
        (B2buaOp.createOutgoing "a" "sip:c@x" none "b" 0 "lt2")).callPairs "b" =
      some "a" := by
  have hsym : pairsSymmetric (((B2buaManager.new 100 3600 32).handleInvite "a"
      "sip:alice@x" "sip:bob@x" "t1" 1 none 0 "lt1").1).callPairs := by
    intro a b
    constructor <;> (intro h; exact Option.noConfusion h)
  have h := c6_pairing_symmetry_amended
    (((B2buaManager.new 100 3600 32).handleInvite "a"
        "sip:alice@x" "sip:bob@x" "t1" 1 none 0 "lt1").1)
    (B2buaOp.createOutgoing "a" "sip:c@x" none "b" 0 "lt2")
    hsym ⟨by decide, by decide, by decide⟩
  have h2 := h.2.1 "a" "sip:c@x" none "b" 0 "lt2" rfl (by decide)
  exact ⟨h.1, h2.1, h2.2⟩

/-- C8: `handle_ack(call_id)` succeeds and moves the leg to `Connected`
(also updating `last_activity`) iff the leg exists and its state is
`Connecting`; when the leg is in any other state, or does not exist, it
returns a `StateError` and leaves the manager — in particular the leg's
state — unchanged. -/
theorem c8_handle_ack_requires_connecting (m : B2buaManager) (callId : String)
    (now : Nat) :
    ((∃ u, (m.handleAck callId now).2 = Except.ok u) ↔
      (∃ leg, alistGet m.calls callId = some leg ∧
        leg.dialog.state = CallState.Connecting)) ∧
    (∀ leg, alistGet m.calls callId = some leg →
      leg.dialog.state = CallState.Connecting →
      alistGet (m.handleAck callId now).1.calls callId =
        some { leg with dialog :=
          { leg.dialog with state := CallState.Connected, lastActivity := now } }) ∧
    (∀ leg, alistGet m.calls callId = some leg →
      leg.dialog.state ≠ CallState.Connecting →
      (m.handleAck callId now).1 = m ∧
      (m.handleAck callId now).2 =
        Except.error (SsbcError.StateError "handle_ack" "Invalid state for ACK")) ∧
    (alistGet m.calls callId = none →
      (m.handleAck callId now).1 = m ∧
      (m.handleAck callId now).2 =
        Except.error (SsbcError.StateError "handle_ack" "Call not found")) := by
  cases hget : alistGet m.calls callId with
  | none =>
    have hr : m.handleAck callId now =
        (m, Except.error (SsbcError.StateError "handle_ack" "Call not found")) := by
      simp [B2buaManager.handleAck, hget]
    refine ⟨?_, ?_, ?_, ?_⟩
    · constructor
      · rintro ⟨u, hu⟩
        rw [hr] at hu
        cases hu
      · rintro ⟨leg, hleg, _⟩
        exact Option.noConfusion hleg
    · intro leg hleg
      exact Option.noConfusion hleg
    · intro leg hleg
      exact Option.noConfusion hleg
    · intro _
      rw [hr]
      exact ⟨rfl, rfl⟩
  | some leg =>
    by_cases hstate : leg.dialog.state = CallState.Connecting
    · have hr : m.handleAck callId now =
          ({ m with calls := alistInsert m.calls callId { leg with dialog := { leg.dialog with state := CallState.Connected, lastActivity := now } } }, Except.ok ()) := by
        simp [B2buaManager.handleAck, hget, hstate]
      refine ⟨?_, ?_, ?_, ?_⟩
      · constructor
        · intro _
          exact ⟨leg, rfl, hstate⟩
        · intro _
          exact ⟨(), by rw [hr]⟩
      · intro leg' hleg' _
        injection hleg' with hleg'
        rw [← hleg', hr]
        show alistGet (alistInsert m.calls callId _) callId = _
        rw [alistGet_insert, if_pos rfl]
      · intro leg' hleg' hne
        injection hleg' with hleg'
        rw [← hleg'] at hne
        exact absurd hstate hne
      · intro hnone
        exact Option.noConfusion hnone
    · have hr : m.handleAck callId now =
          (m, Except.error (SsbcError.StateError "handle_ack" "Invalid state for ACK")) := by
        simp [B2buaManager.handleAck, hget, hstate]
      refine ⟨?_, ?_, ?_, ?_⟩
      · constructor
        · rintro ⟨u, hu⟩
          rw [hr] at hu
          cases hu
        · rintro ⟨leg', hleg', hst'⟩
          injection hleg' with hleg'
          rw [hleg'] at hstate
          exact absurd hst' hstate
      · intro leg' hleg' hst'
        injection hleg' with hleg'
        rw [hleg'] at hstate
        exact absurd hst' hstate
      · intro _ _ _
        rw [hr]
        exact ⟨rfl, rfl⟩
      · intro hnone
        exact Option.noConfusion hnone

/-- Witness for C8: a leg driven to `Connecting` by a 200 response accepts
the ACK, and an unknown Call-ID leaves the manager untouched with a
`StateError`. -/
theorem c8_handle_ack_requires_connecting_witness :
    (∃ u, (((((B2buaManager.new 100 3600 32).handleInvite "a" "sip:alice@x"
        "sip:bob@x" "t1" 1 none 0 "lt1").1).handleResponse "a" 200 (some "t2")
        none 5).1.handleAck "a" 7).2 = Except.ok u) ∧
    ((B2buaManager.new 1 1 1).handleAck "x" 0).1 = B2buaManager.new 1 1 1 := by
  constructor
  · exact (c8_handle_ack_requires_connecting _ "a" 7).1.mpr
      ⟨{ dialog := { callId := "a", localTag := "lt1", remoteTag := some "t2",
                     localUri := "sip:bob@x", remoteUri := "sip:alice@x",
                     localCseq := 1, remoteCseq := 1,
                     state := CallState.Connecting, createdAt := 0,
                     lastActivity := 5, routeSet := [], contact := none,
                     sdp := none },
         transactions := [], mediaRelay := none, peerLegId := none },
       by decide, rfl⟩
  · exact ((c8_handle_ack_requires_connecting (B2buaManager.new 1 1 1) "x"
      0).2.2.2 (by decide)).1

/-- C9: for an existing leg, a status code outside 100–699 makes
`handle_response` return a `StateError`, but the supplied `to_tag` and SDP
have already been written into the leg's dialog when the error is returned:
`remote_tag` and `sdp` are updated on the error path while `state` and
`last_activity` keep their previous values (the operation is not atomic on
error). -/
theorem c9_handle_response_updates_before_error (m : B2buaManager)
    (callId : String) (statusCode : Nat) (toTag : Option String)
    (sdp : Option SessionDescription) (now : Nat) (leg : CallLeg)
    (hleg : alistGet m.calls callId = some leg)
    (hcode : ¬ (100 ≤ statusCode ∧ statusCode ≤ 699)) :
    (m.handleResponse callId statusCode toTag sdp now).2 =
      Except.error (SsbcError.StateError "handle_response"
        ("Invalid status code: " ++ toString statusCode)) ∧
    alistGet (m.handleResponse callId statusCode toTag sdp now).1.calls callId =
      some { leg with dialog := { leg.dialog with
        remoteTag := match toTag with
          | some t => some t
          | none => leg.dialog.remoteTag,
        sdp := match sdp with
          | some s => some s
          | none => leg.dialog.sdp } } := by
  have h1 : ¬ (100 ≤ statusCode ∧ statusCode ≤ 199) := by omega
  have h2 : ¬ (200 ≤ statusCode ∧ statusCode ≤ 299) := by omega
  have h3 : ¬ (300 ≤ statusCode ∧ statusCode ≤ 699) := by omega
  rcases toTag with _ | t <;> rcases sdp with _ | s <;>
    refine ⟨by simp [B2buaManager.handleResponse, hleg, h1, h2, h3], ?_⟩ <;>
    · simp only [B2buaManager.handleResponse, hleg, h1, h2, h3, if_false,
        decide_eq_true_eq]
      rw [alistGet_insert, if_pos rfl]

/-- Witness for C9: status code 700 on an existing leg yields the
`StateError` while the supplied tag `"t2"` has been stored as the leg's
`remote_tag`, with `state` still `Calling` and `last_activity` still 0. -/
theorem c9_handle_response_updates_before_error_witness :
    ((((B2buaManager.new 100 3600 32).handleInvite "a" "sip:alice@x"
        "sip:bob@x" "t1" 1 none 0 "lt1").1).handleResponse "a" 700 (some "t2")
        none 9).2 =
      Except.error (SsbcError.StateError "handle_response"
        ("Invalid status code: " ++ toString 700)) ∧
    alistGet ((((B2buaManager.new 100 3600 32).handleInvite "a" "sip:alice@x"
        "sip:bob@x" "t1" 1 none 0 "lt1").1).handleResponse "a" 700 (some "t2")
        none 9).1.calls "a" =
      some { dialog := { callId := "a", localTag := "lt1",
                         remoteTag := some "t2", localUri := "sip:bob@x",
                         remoteUri := "sip:alice@x", localCseq := 1,
                         remoteCseq := 1, state := CallState.Calling,
                         createdAt := 0, lastActivity := 0, routeSet := [],
                         contact := none, sdp := none },
             transactions := [], mediaRelay := none, peerLegId := none } :=
  c9_handle_response_updates_before_error _ "a" 700 (some "t2") none 9
    { dialog := { callId := "a", localTag := "lt1", remoteTag := some "t1",
                  localUri := "sip:bob@x", remoteUri := "sip:alice@x",
                  localCseq := 1, remoteCseq := 1, state := CallState.Calling,
                  createdAt := 0, lastActivity := 0, routeSet := [],
                  contact := none, sdp := none },
      transactions := [], mediaRelay := none, peerLegId := none }
    (by decide) (by decide)

/-! ## Enhanced transactions and RFC 3261 timers (`b2bua_enhanced.rs`)

Rust `Duration`s are modelled in milliseconds (`Nat`); `Duration::as_secs`
is truncating division by 1000, exactly as in the source.  The clock read in
`EnhancedTransaction::new` is an explicit parameter. -/

/-- `TimerConfig` (`b2bua_enhanced.rs`), all durations in milliseconds. -/
structure TimerConfig where
  t1 : Nat
  t2 : Nat
  t4 : Nat
  timerAInitial : Nat
  timerB : Nat
  timerC : Nat
  timerD : Nat
  timerEInitial : Nat
  timerF : Nat
  timerGInitial : Nat
  timerH : Nat
  timerI : Nat
  timerJ : Nat
  timerK : Nat
  deriving DecidableEq, Repr

/-- `TimerConfig::default()`: `T1 = 500ms`, `T2 = 4s`, `T4 = 5s`,
`B = F = H = J = 64·T1`, `C = 180s`, `D = 32s`. -/
def TimerConfig.default : TimerConfig :=
  { t1 := 500, t2 := 4000, t4 := 5000,
    timerAInitial := 500, timerB := 500 * 64, timerC := 180000,
    timerD := 32000, timerEInitial := 500, timerF := 500 * 64,
    timerGInitial := 500, timerH := 500 * 64, timerI := 5000,
    timerJ := 500 * 64, timerK := 5000 }

/-- `TimerEvent` (`b2bua_enhanced.rs`). -/
inductive TimerEvent where
  | Retransmit
  | Timeout
  | ProvisionalTimeout
  deriving DecidableEq, Repr

/-- `EnhancedTransaction` (`b2bua_enhanced.rs`).  Timer expiries are in
seconds (the source stores `u64` second timestamps), the retransmit interval
in milliseconds. -/
structure EnhancedTransaction where
  base : Transaction
  timerConfig : TimerConfig
  activeTimers : List (String × Nat)
  isReliable : Bool
  currentRetransmitInterval : Nat
  sourceAddr : String
  destAddr : String
  deriving DecidableEq, Repr

/-- `EnhancedTransaction::new` (`now` models the `SystemTime` read, in
seconds). -/
def EnhancedTransaction.new (branchId method : String) (isReliable : Bool)
    (sourceAddr destAddr : String) (now : Nat) : EnhancedTransaction :=
  let timerConfig := TimerConfig.default
  let activeTimers : List (String × Nat) :=
    if method = "INVITE" then
      (if ¬ isReliable then [("A", now + timerConfig.timerAInitial / 1000)] else []) ++
      [("B", now + timerConfig.timerB / 1000)]
    else
      (if ¬ isReliable then [("E", now + timerConfig.timerEInitial / 1000)] else []) ++
      [("F", now + timerConfig.timerF / 1000)]
  { base := { branchId := branchId, method := method,
              state := TransactionState.Calling, createdAt := now,
              lastResponseCode := none, retransmissionCount := 0,
              timeoutAt := none },
    timerConfig := timerConfig, activeTimers := activeTimers,
    isReliable := isReliable, currentRetransmitInterval := 500,
    sourceAddr := sourceAddr, destAddr := destAddr }

/-- One iteration of the expired-timer loop in
`EnhancedTransaction::process_timer_expiry`: remove the timer at the stored
index, then dispatch on its name.  `"A"` doubles the retransmit interval,
caps it at `T2`, and re-arms; `"E"` does the same through `min`; `"B"`/`"F"`
emit `Timeout` and terminate; `"C"` emits `ProvisionalTimeout`; `"D"`
terminates silently. -/
def timerStep (currentTime : Nat) (acc : EnhancedTransaction × List TimerEvent)
    (x : Nat × String) : EnhancedTransaction × List TimerEvent :=
  let tx := { acc.1 with activeTimers := acc.1.activeTimers.eraseIdx x.1 }
  let events := acc.2
  if x.2 = "A" then
    let doubled := tx.currentRetransmitInterval * 2
    let newInterval := if doubled > tx.timerConfig.t2 then tx.timerConfig.t2 else doubled
    ({ tx with
        base := { tx.base with retransmissionCount := tx.base.retransmissionCount + 1 },
        currentRetransmitInterval := newInterval,
        activeTimers := tx.activeTimers ++ [("A", currentTime + newInterval / 1000)] },
     events ++ [TimerEvent.Retransmit])
  else if x.2 = "B" then
    ({ tx with base := { tx.base with state := TransactionState.Terminated } },
     events ++ [TimerEvent.Timeout])
  else if x.2 = "C" then
    (tx, events ++ [TimerEvent.ProvisionalTimeout])
  else if x.2 = "D" then
    ({ tx with base := { tx.base with state := TransactionState.Terminated } }, events)
  else if x.2 = "E" then
    let newInterval := min (tx.currentRetransmitInterval * 2) tx.timerConfig.t2
    ({ tx with
        base := { tx.base with retransmissionCount := tx.base.retransmissionCount + 1 },
        currentRetransmitInterval := newInterval,
        activeTimers := tx.activeTimers ++ [("E", currentTime + newInterval / 1000)] },
     events ++ [TimerEvent.Retransmit])
  else if x.2 = "F" then
    ({ tx with base := { tx.base with state := TransactionState.Terminated } },
     events ++ [TimerEvent.Timeout])
  else
    (tx, events)

/-- `EnhancedTransaction::process_timer_expiry`: collect the `(index, name)`
pairs of all timers with `expiry ≤ current_time` in index order, then
process them in reverse order so that the removals keep indices valid. -/
def EnhancedTransaction.processTimerExpiry (tx : EnhancedTransaction)
    (currentTime : Nat) : EnhancedTransaction × List TimerEvent :=
  let expired := ((tx.activeTimers.enum.filter
    (fun p => p.2.2 ≤ currentTime)).map (fun p => (p.1, p.2.1)))
  expired.reverse.foldl (timerStep currentTime) (tx, [])

theorem timerStep_config (currentTime : Nat)
    (acc : EnhancedTransaction × List TimerEvent) (x : Nat × String) :
    (timerStep currentTime acc x).1.timerConfig = acc.1.timerConfig := by
  unfold timerStep
  split_ifs <;> rfl

theorem timerStep_interval (currentTime : Nat)
    (acc : EnhancedTransaction × List TimerEvent) (x : Nat × String)
    (h : acc.1.currentRetransmitInterval ≤ acc.1.timerConfig.t2) :
    acc.1.currentRetransmitInterval ≤
        (timerStep currentTime acc x).1.currentRetransmitInterval ∧
    (timerStep currentTime acc x).1.currentRetransmitInterval ≤
        acc.1.timerConfig.t2 := by
  unfold timerStep
  split_ifs with h1 h2 h3 h4 h5 h6 <;>
    refine ⟨?_, ?_⟩ <;>
    (try simp [Nat.min_def]) <;>
    first
      | omega
      | (split_ifs <;> omega)

theorem foldl_timerStep_interval (currentTime : Nat) (xs : List (Nat × String))
    (acc : EnhancedTransaction × List TimerEvent)
    (h : acc.1.currentRetransmitInterval ≤ acc.1.timerConfig.t2) :
    acc.1.currentRetransmitInterval ≤
        (xs.foldl (timerStep currentTime) acc).1.currentRetransmitInterval ∧
    (xs.foldl (timerStep currentTime) acc).1.currentRetransmitInterval ≤
        acc.1.timerConfig.t2 ∧
    (xs.foldl (timerStep currentTime) acc).1.timerConfig = acc.1.timerConfig := by
  induction xs generalizing acc with
  | nil => exact ⟨Nat.le_refl _, h, rfl⟩
  | cons x rest ih =>
    obtain ⟨hmono, hcap⟩ := timerStep_interval currentTime acc x h
    have hconf := timerStep_config currentTime acc x
    have := ih (timerStep currentTime acc x) (by rw [hconf]; exact hcap)
    refine ⟨Nat.le_trans hmono this.1, ?_, ?_⟩
    · show (List.foldl (timerStep currentTime) (timerStep currentTime acc x)
        rest).1.currentRetransmitInterval ≤ acc.1.timerConfig.t2
      rw [← hconf]
      exact this.2.1
    · show (List.foldl (timerStep currentTime) (timerStep currentTime acc x)
        rest).1.timerConfig = acc.1.timerConfig
      exact this.2.2.trans hconf

/-- C7: with the default timer configuration (`T2 = 4s`), as long as the
retransmit interval is at most `T2` it stays at most `T2` and never
decreases across `process_timer_expiry`; and when the pending Timer `A` is
the only timer due, the call emits exactly one `Retransmit` event,
increments `retransmission_count` by one, sets the interval to the
doubled-but-capped value, and re-arms Timer `A` at
`current_time + interval/1000`. -/
theorem c7_timer_a_backoff_monotone (tx : EnhancedTransaction) (now : Nat)
    (htc : tx.timerConfig = TimerConfig.default)
    (hle : tx.currentRetransmitInterval ≤ 4000) :
    (tx.currentRetransmitInterval ≤
        (tx.processTimerExpiry now).1.currentRetransmitInterval ∧
      (tx.processTimerExpiry now).1.currentRetransmitInterval ≤ 4000) ∧
    (∀ i, ((tx.activeTimers.enum.filter
          (fun p => p.2.2 ≤ now)).map (fun p => (p.1, p.2.1))) = [(i, "A")] →
      (tx.processTimerExpiry now).2 = [TimerEvent.Retransmit] ∧
      (tx.processTimerExpiry now).1.base.retransmissionCount =
        tx.base.retransmissionCount + 1 ∧
      (tx.processTimerExpiry now).1.currentRetransmitInterval =
        (if tx.currentRetransmitInterval * 2 > 4000 then 4000
         else tx.currentRetransmitInterval * 2) ∧
      (tx.processTimerExpiry now).1.activeTimers =
        tx.activeTimers.eraseIdx i ++
          [("A", now + (if tx.currentRetransmitInterval * 2 > 4000 then 4000
                        else tx.currentRetransmitInterval * 2) / 1000)]) := by
  have ht2 : tx.timerConfig.t2 = 4000 := by rw [htc]; rfl
  constructor
  · have := foldl_timerStep_interval now
      (((tx.activeTimers.enum.filter (fun p => p.2.2 ≤ now)).map
        (fun p => (p.1, p.2.1))).reverse) (tx, []) (by rw [ht2]; exact hle)
    exact ⟨this.1, by rw [← ht2]; exact this.2.1⟩
  · intro i hexp
    show (EnhancedTransaction.processTimerExpiry tx now).2 = _ ∧ _
    unfold EnhancedTransaction.processTimerExpiry
    rw [hexp]
    show (timerStep now (tx, []) (i, "A")).2 = _ ∧
      (timerStep now (tx, []) (i, "A")).1.base.retransmissionCount = _ ∧
      (timerStep now (tx, []) (i, "A")).1.currentRetransmitInterval = _ ∧
      (timerStep now (tx, []) (i, "A")).1.activeTimers = _
    unfold timerStep
    simp [ht2]

/-- Witness for C7: a fresh unreliable INVITE transaction whose Timer `A` is
due at `now = 5` (Timer `B` is not) emits one `Retransmit`, reaches
`retransmission_count = 1`, doubles the interval from 500ms to 1000ms, and
re-arms Timer `A` at second 6. -/
theorem c7_timer_a_backoff_monotone_witness :
    ((EnhancedTransaction.new "z9hG4bK1" "INVITE" false "src" "dst" 0).processTimerExpiry 5).2 =
      [TimerEvent.Retransmit] ∧
    ((EnhancedTransaction.new "z9hG4bK1" "INVITE" false "src" "dst" 0).processTimerExpiry 5).1.base.retransmissionCount = 1 ∧
    ((EnhancedTransaction.new "z9hG4bK1" "INVITE" false "src" "dst" 0).processTimerExpiry 5).1.currentRetransmitInterval = 1000 ∧
    ((EnhancedTransaction.new "z9hG4bK1" "INVITE" false "src" "dst" 0).processTimerExpiry 5).1.activeTimers =
      [("B", 32), ("A", 6)] := by
  have h := c7_timer_a_backoff_monotone
    (EnhancedTransaction.new "z9hG4bK1" "INVITE" false "src" "dst" 0) 5
    (by rfl) (by decide)
  have h2 := h.2 0 (by decide)
  exact ⟨h2.1, h2.2.1, h2.2.2.1, h2.2.2.2⟩

/-! ## Zero-copy message modification (`modification.rs`, `mod zero_copy`)

The modifier reads the parsed message's raw text line by line.  We embed at
the level of logical header lines: a parsed message is a start line, a list
of `(name, value)` header lines (the text before the first `:`, trimmed, and
the text after it) and an optional body.  `ZeroCopyModifier::build` walks
these lines exactly as the source does; the `HashMap` of modified headers is
an association list with `HashMap::insert` semantics (its iteration order
only affects the relative order of appended absent headers, which no
verified property depends on). -/

/-- Line-level view of a parsed `SipMessage` as read back by the modifier. -/
structure SipMsgModel where
  firstLine : String
  headers : List (String × String)
  body : Option String
  deriving DecidableEq, Repr

/-- Header sequence of the octet buffer emitted by
`ZeroCopyModifier::build`. -/
structure BuiltMsg where
  firstLine : String
  headers : List (String × String)
  body : Option String
  deriving DecidableEq, Repr

/-- `ZeroCopyModifier` (`modification.rs`). -/
structure ZeroCopyModifier where
  original : SipMsgModel
  modifiedHeaders : List (String × Option String)
  strippedHeaders : List String
  newHeaders : List (String × String)
  modifiedRequestLine : Option String
  modifiedStatusLine : Option String
  deriving DecidableEq, Repr

/-- `ZeroCopyModifier::new`. -/
def ZeroCopyModifier.new (message : SipMsgModel) : ZeroCopyModifier :=
  { original := message, modifiedHeaders := [], strippedHeaders := [],
    newHeaders := [], modifiedRequestLine := none, modifiedStatusLine := none }

/-- `strip_via_headers`. -/
def ZeroCopyModifier.stripViaHeaders (m : ZeroCopyModifier) : ZeroCopyModifier :=
  { m with strippedHeaders := m.strippedHeaders ++ ["Via"] }

/-- `strip_record_route_headers`. -/
def ZeroCopyModifier.stripRecordRouteHeaders (m : ZeroCopyModifier) :
    ZeroCopyModifier :=
  { m with strippedHeaders := m.strippedHeaders ++ ["Record-Route"] }

/-- `replace_call_id`. -/
def ZeroCopyModifier.replaceCallId (m : ZeroCopyModifier) (newCallId : String) :
    Except SsbcError ZeroCopyModifier :=
  if newCallId = "" then
    .error (.ParseError "Call-ID cannot be empty")
  else
    .ok { m with modifiedHeaders :=
      alistInsert m.modifiedHeaders "Call-ID" (some newCallId) }

/-- `set_contact`. -/
def ZeroCopyModifier.setContact (m : ZeroCopyModifier) (contact : String) :
    Except SsbcError ZeroCopyModifier :=
  if contact = "" then
    .error (.ParseError "Contact cannot be empty")
  else
    .ok { m with modifiedHeaders :=
      alistInsert m.modifiedHeaders "Contact" (some contact) }

/-- `decrement_max_forwards`: the source inserts the constant `"69"`
regardless of the received value (its comment reads “Set Max-Forwards to 69
(assuming original was 70)”). -/
def ZeroCopyModifier.decrementMaxForwards (m : ZeroCopyModifier) :
    Except SsbcError ZeroCopyModifier :=
  .ok { m with modifiedHeaders :=
    alistInsert m.modifiedHeaders "Max-Forwards" (some "69") }

/-- `add_via`. -/
def ZeroCopyModifier.addVia (m : ZeroCopyModifier) (via : String) :
    ZeroCopyModifier :=
  { m with newHeaders := m.newHeaders ++ [("Via", via)] }

/-- The per-line processing of the original header block in `build`:
skip it when its name matches the strip set (ASCII case-insensitively),
substitute the new value when the modified map holds one (emitting the
original casing of the name), drop it when the map holds `None`, and keep
it verbatim otherwise. -/
def processOriginalHeader (m : ZeroCopyModifier) (h : String × String) :
    Option (String × String) :=
  if m.strippedHeaders.any (fun s => eqIgnoreCase s h.1) then
    none
  else
    match m.modifiedHeaders.find? (fun p => eqIgnoreCase p.1 h.1) with
    | some (_, some v) => some (h.1, v)
    | some (_, none) => none
    | none => some h

/-- The trailing emission of `build`: modified headers whose names did not
occur in the original message are appended with their new values. -/
def emitAbsentModified (m : ZeroCopyModifier) (p : String × Option String) :
    Option (String × String) :=
  if m.original.headers.any (fun h => eqIgnoreCase h.1 p.1) then
    none
  else
    match p.2 with
    | some v => some (p.1, v)
    | none => none

/-- `ZeroCopyModifier::build` at the header-line level: modified
request/status line (or the original first line), then all new `Via`
headers, then the surviving original headers, then the non-`Via` new
headers, then the modified-but-absent headers, then the body. -/
def ZeroCopyModifier.build (m : ZeroCopyModifier) : BuiltMsg :=
  { firstLine :=
      match m.modifiedRequestLine with
      | some l => l
      | none =>
        match m.modifiedStatusLine with
        | some l => l
        | none => m.original.firstLine,
    headers :=
      m.newHeaders.filter (fun h => h.1 = "Via") ++
      m.original.headers.filterMap (processOriginalHeader m) ++
      m.newHeaders.filter (fun h => h.1 ≠ "Via") ++
      m.modifiedHeaders.filterMap (emitAbsentModified m),
    body := m.original.body }

/-- `B2BuaOperations::create_b2bua_request` (`modification.rs`). -/
def createB2buaRequest (msg : SipMsgModel) (newCallId b2buaContact viaBranch
    viaHost : String) (viaPort : Nat) : Except SsbcError BuiltMsg := do
  let m := ZeroCopyModifier.new msg
  let m := m.stripViaHeaders
  let via := "SIP/2.0/UDP " ++ viaHost ++ ":" ++ toString viaPort ++
    ";branch=" ++ viaBranch
  let m := m.addVia via
  let m := m.stripRecordRouteHeaders
  let m ← m.replaceCallId newCallId
  let m ← m.setContact b2buaContact
  let m ← m.decrementMaxForwards
  return m.build

/-- C2 (counterexample): on a request carrying `Max-Forwards: 5` — a value
that parses as a non-negative integer — `decrement_max_forwards` emits
`Max-Forwards: 69`, not `received_value − 1 = 4`. -/
theorem c2_decrement_max_forwards_counterexample :
    ((((ZeroCopyModifier.new
        { firstLine := "INVITE sip:bob@example.com SIP/2.0",
          headers := [("Via", "SIP/2.0/UDP client.example.com;branch=z9hG4bK776asdhds"),
                      ("From", "Alice <sip:alice@example.com>;tag=123"),
                      ("To", "Bob <sip:bob@example.com>"),
                      ("Call-ID", "test-call-id"), ("CSeq", "1 INVITE"),
                      ("Max-Forwards", "5"), ("Content-Length", "0")],
          body := none }).decrementMaxForwards).map
        ZeroCopyModifier.build).map
        (fun out => out.headers.filter (fun h => eqIgnoreCase h.1 "max-forwards")) =
      Except.ok [("Max-Forwards", "69")]) ∧
    ¬ ((((ZeroCopyModifier.new
        { firstLine := "INVITE sip:bob@example.com SIP/2.0",
          headers := [("Via", "SIP/2.0/UDP client.example.com;branch=z9hG4bK776asdhds"),
                      ("From", "Alice <sip:alice@example.com>;tag=123"),
                      ("To", "Bob <sip:bob@example.com>"),
                      ("Call-ID", "test-call-id"), ("CSeq", "1 INVITE"),
                      ("Max-Forwards", "5"), ("Content-Length", "0")],
          body := none }).decrementMaxForwards).map
        ZeroCopyModifier.build).map
        (fun out => out.headers.filter (fun h => eqIgnoreCase h.1 "max-forwards")) =
      Except.ok [("Max-Forwards", "4")]) := by
  exact ⟨by decide, by decide⟩

theorem eqIgnoreCase_comm_true {a b : String} (h : eqIgnoreCase a b = true) :
    eqIgnoreCase b a = true := by
  rw [eqIgnoreCase_symm]; exact h

/-- If `n` is case-insensitively equal to `k2` and `k1` is not, then `k1`
and `n` differ case-insensitively. -/
theorem eqIgnoreCase_conflict {n k1 k2 : String}
    (h1 : eqIgnoreCase n k2 = true) (hk : eqIgnoreCase k1 k2 = false) :
    eqIgnoreCase k1 n = false := by
  cases hb : eqIgnoreCase k1 n with
  | false => rfl
  | true => exact absurd ((eqIgnoreCase_trans hb h1).symm.trans hk) (by decide)

/-- Shape of a header emitted by the original-header pass of `build`. -/
theorem processOriginalHeader_some (m : ZeroCopyModifier) (h0 h : String × String)
    (hp : processOriginalHeader m h0 = some h) :
    h.1 = h0.1 ∧
    m.strippedHeaders.any (fun s => eqIgnoreCase s h0.1) = false ∧
    ((m.modifiedHeaders.find? (fun p => eqIgnoreCase p.1 h0.1) = none ∧ h = h0) ∨
      ∃ k v, m.modifiedHeaders.find? (fun p => eqIgnoreCase p.1 h0.1) =
        some (k, some v) ∧ h = (h0.1, v)) := by
  unfold processOriginalHeader at hp
  by_cases hstrip : m.strippedHeaders.any (fun s => eqIgnoreCase s h0.1) = true
  · rw [if_pos hstrip] at hp
    cases hp
  · have hstrip' : m.strippedHeaders.any (fun s => eqIgnoreCase s h0.1) = false := by
      cases hb : m.strippedHeaders.any (fun s => eqIgnoreCase s h0.1) with
      | false => rfl
      | true => exact absurd hb hstrip
    rw [if_neg hstrip] at hp
    cases hfind : m.modifiedHeaders.find? (fun p => eqIgnoreCase p.1 h0.1) with
    | none =>
      rw [hfind] at hp
      injection hp with hp
      exact ⟨hp ▸ rfl, hstrip', Or.inl ⟨rfl, hp.symm⟩⟩
    | some kv =>
      rcases kv with ⟨k, _ | v⟩
      · rw [hfind] at hp
        cases hp
      · rw [hfind] at hp
        injection hp with hp
        exact ⟨hp ▸ rfl, hstrip', Or.inr ⟨k, v, rfl, hp.symm⟩⟩

/-- Shape of a header emitted by the absent-modified pass of `build`. -/
theorem emitAbsentModified_some (m : ZeroCopyModifier) (p : String × Option String)
    (h : String × String) (he : emitAbsentModified m p = some h) :
    h.1 = p.1 ∧ p.2 = some h.2 ∧
    m.original.headers.any (fun q => eqIgnoreCase q.1 p.1) = false := by
  unfold emitAbsentModified at he
  by_cases hany : m.original.headers.any (fun q => eqIgnoreCase q.1 p.1) = true
  · rw [if_pos hany] at he
    cases he
  · have hany' : m.original.headers.any (fun q => eqIgnoreCase q.1 p.1) = false := by
      cases hb : m.original.headers.any (fun q => eqIgnoreCase q.1 p.1) with
      | false => rfl
      | true => exact absurd hb hany
    rw [if_neg hany] at he
    cases hp2 : p.2 with
    | none =>
      rw [hp2] at he
      cases he
    | some v =>
      rw [hp2] at he
      injection he with he
      exact ⟨he ▸ rfl, by rw [← he], hany'⟩

/-- Every header of the built message whose name is case-insensitively `L`
carries the value `V`, provided the new headers avoid `L`, the modified map
sends every ci-`L` key to `V`, and lookups by a ci-`L` name hit an entry
with value `V`. -/
theorem build_header_value (m : ZeroCopyModifier) (L V : String)
    (hnew : ∀ hn ∈ m.newHeaders, eqIgnoreCase hn.1 L = false)
    (hmh : ∀ p ∈ m.modifiedHeaders, eqIgnoreCase p.1 L = true → p.2 = some V)
    (hfind : ∀ name, eqIgnoreCase name L = true →
      ∃ k, m.modifiedHeaders.find? (fun p => eqIgnoreCase p.1 name) =
        some (k, some V)) :
    ∀ h ∈ m.build.headers, eqIgnoreCase h.1 L = true → h.2 = V := by
  intro h hmem hL
  unfold ZeroCopyModifier.build at hmem
  simp only [List.mem_append] at hmem
  rcases hmem with ((hA | hB) | hC) | hD
  · have := hnew h (List.mem_of_mem_filter hA)
    rw [this] at hL
    exact Bool.noConfusion hL
  · obtain ⟨h0, hm0, hproc⟩ := List.mem_filterMap.mp hB
    obtain ⟨hname, _, hcase⟩ := processOriginalHeader_some m h0 h hproc
    rw [hname] at hL
    obtain ⟨k, hk⟩ := hfind h0.1 hL
    rcases hcase with ⟨hnone, hkeep⟩ | ⟨k', v', hfind', heq⟩
    · rw [hnone] at hk
      cases hk
    · rw [hfind'] at hk
      injection hk with hk
      injection hk with _ hk2
      injection hk2 with hk2
      rw [heq, hk2]
  · have := hnew h (List.mem_of_mem_filter hC)
    rw [this] at hL
    exact Bool.noConfusion hL
  · obtain ⟨p, hp, hemit⟩ := List.mem_filterMap.mp hD
    obtain ⟨hname, hval, _⟩ := emitAbsentModified_some m p h hemit
    rw [hname] at hL
    have := hmh p hp hL
    rw [this] at hval
    injection hval with hval
    exact hval.symm

/-- The built message carries at least one header whose name is
case-insensitively `L` with value `V`: either an original ci-`L` header was
rewritten in place, or the `(K, V)` entry of the modified map is appended
because no original header matched. -/
theorem build_header_exists (m : ZeroCopyModifier) (L V K : String)
    (hKmem : (K, some V) ∈ m.modifiedHeaders)
    (hKL : eqIgnoreCase K L = true)
    (hfind : ∀ name, eqIgnoreCase name L = true →
      ∃ k, m.modifiedHeaders.find? (fun p => eqIgnoreCase p.1 name) =
        some (k, some V))
    (hstrip : ∀ name, eqIgnoreCase name L = true →
      m.strippedHeaders.any (fun s => eqIgnoreCase s name) = false) :
    ∃ h ∈ m.build.headers, eqIgnoreCase h.1 L = true ∧ h.2 = V := by
  by_cases hany : m.original.headers.any (fun q => eqIgnoreCase q.1 K) = true
  · obtain ⟨h0, hm0, hci⟩ := List.any_eq_true.mp hany
    have hciL : eqIgnoreCase h0.1 L = true := eqIgnoreCase_trans hci hKL
    obtain ⟨k, hk⟩ := hfind h0.1 hciL
    refine ⟨(h0.1, V), ?_, hciL, rfl⟩
    unfold ZeroCopyModifier.build
    simp only [List.mem_append]
    refine Or.inl (Or.inl (Or.inr (List.mem_filterMap.mpr ⟨h0, hm0, ?_⟩)))
    unfold processOriginalHeader
    rw [if_neg (by rw [hstrip h0.1 hciL]; simp), hk]
  · have hany' : m.original.headers.any (fun q => eqIgnoreCase q.1 K) = false := by
      cases hb : m.original.headers.any (fun q => eqIgnoreCase q.1 K) with
      | false => rfl
      | true => exact absurd hb hany
    refine ⟨(K, V), ?_, hKL, rfl⟩
    unfold ZeroCopyModifier.build
    simp only [List.mem_append]
    refine Or.inr (List.mem_filterMap.mpr ⟨(K, some V), hKmem, ?_⟩)
    unfold emitAbsentModified
    rw [if_neg (by rw [hany']; simp)]

/-- C2 (amended): `decrement_max_forwards` sets the `Max-Forwards` value in
the emitted message to the constant 69 regardless of the received value:
after the edit, every emitted header named `Max-Forwards` (ASCII
case-insensitively) carries the value `"69"`, and one such header is always
present. -/
theorem c2_decrement_max_forwards_amended (msg : SipMsgModel) :
    ∃ m, (ZeroCopyModifier.new msg).decrementMaxForwards = Except.ok m ∧
      (∀ h ∈ m.build.headers, eqIgnoreCase h.1 "max-forwards" = true →
        h.2 = "69") ∧
      (∃ h ∈ m.build.headers, eqIgnoreCase h.1 "max-forwards" = true ∧
        h.2 = "69") := by
  refine ⟨_, rfl, ?_, ?_⟩
  · refine build_header_value _ "max-forwards" "69" ?_ ?_ ?_
    · intro hn hmem
      cases hmem
    · intro p hp hci
      cases hp with
      | head => rfl
      | tail _ htl => cases htl
    · intro name hname
      refine ⟨"Max-Forwards", ?_⟩
      have h1 : eqIgnoreCase "Max-Forwards" name = true :=
        eqIgnoreCase_comm_true
          (eqIgnoreCase_trans hname (by decide))
      show List.find? (fun p => eqIgnoreCase p.1 name) [("Max-Forwards", some "69")] = _
      rw [List.find?_cons]
      simp [h1]
  · refine build_header_exists _ "max-forwards" "69" "Max-Forwards" ?_ (by decide) ?_ ?_
    · exact List.mem_singleton.mpr rfl
    · intro name hname
      refine ⟨"Max-Forwards", ?_⟩
      have h1 : eqIgnoreCase "Max-Forwards" name = true :=
        eqIgnoreCase_comm_true
          (eqIgnoreCase_trans hname (by decide))
      show List.find? (fun p => eqIgnoreCase p.1 name) [("Max-Forwards", some "69")] = _
      rw [List.find?_cons]
      simp [h1]
    · intro name _
      rfl

/-- Witness for C2 (amended): on a request with `Max-Forwards: 5` the
emitted `Max-Forwards` header reads `69`. -/
theorem c2_decrement_max_forwards_amended_witness :
    ∃ m, (ZeroCopyModifier.new
        { firstLine := "INVITE sip:bob@example.com SIP/2.0",
          headers := [("Max-Forwards", "5"), ("Call-ID", "x")],
          body := none }).decrementMaxForwards = Except.ok m ∧
      (∀ h ∈ m.build.headers, eqIgnoreCase h.1 "max-forwards" = true →
        h.2 = "69") ∧
      (∃ h ∈ m.build.headers, eqIgnoreCase h.1 "max-forwards" = true ∧
        h.2 = "69") :=
  c2_decrement_max_forwards_amended
    { firstLine := "INVITE sip:bob@example.com SIP/2.0",
      headers := [("Max-Forwards", "5"), ("Call-ID", "x")], body := none }

/-- The modifier state reached inside `create_b2bua_request` just before
`build`: Via and Record-Route stripped, one new Via, and Call-ID, Contact
and Max-Forwards replaced. -/
def b2buaModifier (msg : SipMsgModel) (cid ct via : String) : ZeroCopyModifier :=
  { original := msg,
    modifiedHeaders := [("Call-ID", some cid), ("Contact", some ct),
                        ("Max-Forwards", some "69")],
    strippedHeaders := ["Via", "Record-Route"],
    newHeaders := [("Via", via)],
    modifiedRequestLine := none, modifiedStatusLine := none }

theorem createB2buaRequest_eq (msg : SipMsgModel) (newCallId contact branch
    host : String) (port : Nat) (hcid : newCallId ≠ "")
    (hcontact : contact ≠ "") :
    createB2buaRequest msg newCallId contact branch host port =
      Except.ok ((b2buaModifier msg newCallId contact
        ("SIP/2.0/UDP " ++ host ++ ":" ++ toString port ++ ";branch=" ++ branch)).build) := by
  simp [createB2buaRequest, ZeroCopyModifier.new, ZeroCopyModifier.stripViaHeaders,
    ZeroCopyModifier.addVia, ZeroCopyModifier.stripRecordRouteHeaders,
    ZeroCopyModifier.replaceCallId, ZeroCopyModifier.setContact,
    ZeroCopyModifier.decrementMaxForwards, hcid, hcontact, b2buaModifier,
    alistInsert, Bind.bind, Except.bind, List.any_cons, List.any_nil]
  rfl

/-- The `find?` over the three-entry modified map of `create_b2bua_request`
resolves a ci-`"call-id"` name to the new Call-ID. -/
theorem b2buaModifier_find_callId (msg : SipMsgModel) (cid ct via : String)
    (name : String) (hname : eqIgnoreCase name "call-id" = true) :
    (b2buaModifier msg cid ct via).modifiedHeaders.find?
      (fun p => eqIgnoreCase p.1 name) = some ("Call-ID", some cid) := by
  have c1 : eqIgnoreCase "Call-ID" name = true :=
    eqIgnoreCase_comm_true (eqIgnoreCase_trans hname (by decide))
  simp [b2buaModifier, List.find?_cons, c1]

/-- `find?` resolves a ci-`"contact"` name to the new Contact. -/
theorem b2buaModifier_find_contact (msg : SipMsgModel) (cid ct via : String)
    (name : String) (hname : eqIgnoreCase name "contact" = true) :
    (b2buaModifier msg cid ct via).modifiedHeaders.find?
      (fun p => eqIgnoreCase p.1 name) = some ("Contact", some ct) := by
  have c1 : eqIgnoreCase "Call-ID" name = false :=
    eqIgnoreCase_conflict hname (by decide)
  have c2 : eqIgnoreCase "Contact" name = true :=
    eqIgnoreCase_comm_true (eqIgnoreCase_trans hname (by decide))
  simp [b2buaModifier, List.find?_cons, c1, c2]

/-- `find?` resolves a ci-`"max-forwards"` name to `"69"`. -/
theorem b2buaModifier_find_maxForwards (msg : SipMsgModel) (cid ct via : String)
    (name : String) (hname : eqIgnoreCase name "max-forwards" = true) :
    (b2buaModifier msg cid ct via).modifiedHeaders.find?
      (fun p => eqIgnoreCase p.1 name) = some ("Max-Forwards", some "69") := by
  have c1 : eqIgnoreCase "Call-ID" name = false :=
    eqIgnoreCase_conflict hname (by decide)
  have c2 : eqIgnoreCase "Contact" name = false :=
    eqIgnoreCase_conflict hname (by decide)
  have c3 : eqIgnoreCase "Max-Forwards" name = true :=
    eqIgnoreCase_comm_true (eqIgnoreCase_trans hname (by decide))
  simp [b2buaModifier, List.find?_cons, c1, c2, c3]

/-- Neither `Via` nor `Record-Route` matches names ci-equal to the three
replaced header names, so such lines are never stripped. -/
theorem b2buaModifier_strip_replaced (msg : SipMsgModel) (cid ct via : String)
    (L : String) (hL : eqIgnoreCase "Via" L = false)
    (hL2 : eqIgnoreCase "Record-Route" L = false) (name : String)
    (hname : eqIgnoreCase name L = true) :
    (b2buaModifier msg cid ct via).strippedHeaders.any
      (fun s => eqIgnoreCase s name) = false := by
  have c1 : eqIgnoreCase "Via" name = false := eqIgnoreCase_conflict hname hL
  have c2 : eqIgnoreCase "Record-Route" name = false :=
    eqIgnoreCase_conflict hname hL2
  simp [b2buaModifier, c1, c2]

/-- No surviving original header has a name ci-equal to a stripped name
(`"via"` / `"record-route"`). -/
theorem b2buaModifier_filterB_nil (msg : SipMsgModel) (cid ct via L : String)
    (hL : eqIgnoreCase "Via" L = true ∨ eqIgnoreCase "Record-Route" L = true) :
    ((b2buaModifier msg cid ct via).original.headers.filterMap
      (processOriginalHeader (b2buaModifier msg cid ct via))).filter
      (fun h => eqIgnoreCase h.1 L) = [] := by
  refine List.filter_eq_nil_iff.mpr ?_
  intro h hmem hpred
  obtain ⟨h0, hm0, hproc⟩ := List.mem_filterMap.mp hmem
  obtain ⟨hname, hstripf, _⟩ :=
    processOriginalHeader_some (b2buaModifier msg cid ct via) h0 h hproc
  rw [hname] at hpred
  simp only [b2buaModifier, List.any_cons, List.any_nil, Bool.or_eq_false_iff] at hstripf
  rcases hL with hL | hL
  · have : eqIgnoreCase "Via" h0.1 = true :=
      eqIgnoreCase_trans hL (eqIgnoreCase_comm_true hpred)
    rw [hstripf.1] at this
    exact Bool.noConfusion this
  · have : eqIgnoreCase "Record-Route" h0.1 = true :=
      eqIgnoreCase_trans hL (eqIgnoreCase_comm_true hpred)
    rw [hstripf.2.1] at this
    exact Bool.noConfusion this

/-- None of the appended absent-modified headers (named `Call-ID`,
`Contact`, `Max-Forwards`) matches a name `L` that all three keys differ
from ci-insensitively. -/
theorem b2buaModifier_filterD_nil (msg : SipMsgModel) (cid ct via L : String)
    (h1 : eqIgnoreCase "Call-ID" L = false)
    (h2 : eqIgnoreCase "Contact" L = false)
    (h3 : eqIgnoreCase "Max-Forwards" L = false) :
    ((b2buaModifier msg cid ct via).modifiedHeaders.filterMap
      (emitAbsentModified (b2buaModifier msg cid ct via))).filter
      (fun h => eqIgnoreCase h.1 L) = [] := by
  refine List.filter_eq_nil_iff.mpr ?_
  intro h hmem hpred
  obtain ⟨p, hp, hemit⟩ := List.mem_filterMap.mp hmem
  obtain ⟨hname, _, _⟩ :=
    emitAbsentModified_some (b2buaModifier msg cid ct via) p h hemit
  rw [hname] at hpred
  cases hp with
  | head =>
    rw [h1] at hpred
    exact Bool.noConfusion hpred
  | tail _ hp1 =>
    cases hp1 with
    | head =>
      rw [h2] at hpred
      exact Bool.noConfusion hpred
    | tail _ hp2 =>
      cases hp2 with
      | head =>
        rw [h3] at hpred
        exact Bool.noConfusion hpred
      | tail _ hp3 => cases hp3

/-- C3 (counterexample): on a valid INVITE carrying `Max-Forwards: 5`,
`create_b2bua_request` emits `Max-Forwards: 69`, which is not strictly less
than the input's value 5 — the Max-Forwards clause of the claim fails. -/
theorem c3_create_b2bua_request_counterexample :
    (createB2buaRequest
        { firstLine := "INVITE sip:bob@example.com SIP/2.0",
          headers := [("Via", "SIP/2.0/UDP client.example.com;branch=z9hG4bK776"),
                      ("Record-Route", "<sip:proxy.example.com;lr>"),
                      ("From", "Alice <sip:alice@example.com>;tag=123"),
                      ("To", "Bob <sip:bob@example.com>"),
                      ("Call-ID", "orig"), ("CSeq", "1 INVITE"),
                      ("Contact", "<sip:alice@client>"), ("Max-Forwards", "5"),
                      ("Content-Length", "0")],
          body := none }
        "b" "<sip:b@1.2.3.4:5060>" "z9hG4bKb" "1.2.3.4" 5060).map
      (fun out => out.headers.filter (fun h => eqIgnoreCase h.1 "max-forwards")) =
      Except.ok [("Max-Forwards", "69")] ∧
    ¬ (69 < 5) := by
  exact ⟨by decide, by decide⟩

/-- C3 (amended): for every message (header identity taken ASCII
case-insensitively by full name) and non-empty Call-ID and Contact strings,
`create_b2bua_request` succeeds and its output has the new Via as its first
header, exactly one Via header (carrying the specified branch, host and
port), no Record-Route header, Call-ID equal to the supplied string, Contact
equal to the supplied string, and Max-Forwards equal to the constant `"69"`
(not necessarily strictly less than the input's value). -/
theorem c3_create_b2bua_request_amended (msg : SipMsgModel)
    (newCallId contact branch host : String) (port : Nat)
    (hcid : newCallId ≠ "") (hcontact : contact ≠ "") :
    ∃ out, createB2buaRequest msg newCallId contact branch host port =
        Except.ok out ∧
      out.headers.head? = some ("Via",
        "SIP/2.0/UDP " ++ host ++ ":" ++ toString port ++ ";branch=" ++ branch) ∧
      out.headers.filter (fun h => eqIgnoreCase h.1 "via") =
        [("Via", "SIP/2.0/UDP " ++ host ++ ":" ++ toString port ++
          ";branch=" ++ branch)] ∧
      out.headers.filter (fun h => eqIgnoreCase h.1 "record-route") = [] ∧
      (∀ h ∈ out.headers, eqIgnoreCase h.1 "call-id" = true → h.2 = newCallId) ∧
      (∃ h ∈ out.headers, eqIgnoreCase h.1 "call-id" = true ∧ h.2 = newCallId) ∧
      (∀ h ∈ out.headers, eqIgnoreCase h.1 "contact" = true → h.2 = contact) ∧
      (∃ h ∈ out.headers, eqIgnoreCase h.1 "contact" = true ∧ h.2 = contact) ∧
      (∀ h ∈ out.headers, eqIgnoreCase h.1 "max-forwards" = true → h.2 = "69") ∧
      (∃ h ∈ out.headers, eqIgnoreCase h.1 "max-forwards" = true ∧ h.2 = "69") := by
  refine ⟨_, createB2buaRequest_eq msg newCallId contact branch host port
    hcid hcontact, ?_, ?_, ?_, ?_, ?_, ?_, ?_, ?_, ?_⟩
  · rfl
  · show ((b2buaModifier msg newCallId contact _).build).headers.filter _ = _
    unfold ZeroCopyModifier.build
    rw [List.filter_append, List.filter_append, List.filter_append]
    rw [b2buaModifier_filterB_nil msg newCallId contact _ "via" (Or.inl (by decide)),
        b2buaModifier_filterD_nil msg newCallId contact _ "via" (by decide)
          (by decide) (by decide)]
    rfl
  · show ((b2buaModifier msg newCallId contact _).build).headers.filter _ = _
    unfold ZeroCopyModifier.build
    rw [List.filter_append, List.filter_append, List.filter_append]
    rw [b2buaModifier_filterB_nil msg newCallId contact _ "record-route"
          (Or.inr (by decide)),
        b2buaModifier_filterD_nil msg newCallId contact _ "record-route"
          (by decide) (by decide) (by decide)]
    rfl
  · refine build_header_value _ "call-id" newCallId ?_ ?_ ?_
    · intro hn hmem
      cases hmem with
      | head => exact (by decide : eqIgnoreCase "Via" "call-id" = false)
      | tail _ htl => cases htl
    · intro p hp hci
      cases hp with
      | head => rfl
      | tail _ hp1 =>
        cases hp1 with
        | head =>
          exact absurd (show eqIgnoreCase "Contact" "call-id" = true from hci)
            (by decide)
        | tail _ hp2 =>
          cases hp2 with
          | head =>
            exact absurd (show eqIgnoreCase "Max-Forwards" "call-id" = true from hci)
              (by decide)
          | tail _ hp3 => cases hp3
    · intro name hname
      exact ⟨"Call-ID", b2buaModifier_find_callId msg newCallId contact _ name hname⟩
  · refine build_header_exists _ "call-id" newCallId "Call-ID" ?_ (by decide) ?_ ?_
    · exact List.mem_cons_self _ _
    · intro name hname
      exact ⟨"Call-ID", b2buaModifier_find_callId msg newCallId contact _ name hname⟩
    · intro name hname
      exact b2buaModifier_strip_replaced msg newCallId contact _ "call-id"
        (by decide) (by decide) name hname
  · refine build_header_value _ "contact" contact ?_ ?_ ?_
    · intro hn hmem
      cases hmem with
      | head => exact (by decide : eqIgnoreCase "Via" "contact" = false)
      | tail _ htl => cases htl
    · intro p hp hci
      cases hp with
      | head =>
        exact absurd (show eqIgnoreCase "Call-ID" "contact" = true from hci)
          (by decide)
      | tail _ hp1 =>
        cases hp1 with
        | head => rfl
        | tail _ hp2 =>
          cases hp2 with
          | head =>
            exact absurd (show eqIgnoreCase "Max-Forwards" "contact" = true from hci)
              (by decide)
          | tail _ hp3 => cases hp3
    · intro name hname
      exact ⟨"Contact", b2buaModifier_find_contact msg newCallId contact _ name hname⟩
  · refine build_header_exists _ "contact" contact "Contact" ?_ (by decide) ?_ ?_
    · exact List.mem_cons_of_mem _ (List.mem_cons_self _ _)
    · intro name hname
      exact ⟨"Contact", b2buaModifier_find_contact msg newCallId contact _ name hname⟩
    · intro name hname
      exact b2buaModifier_strip_replaced msg newCallId contact _ "contact"
        (by decide) (by decide) name hname
  · refine build_header_value _ "max-forwards" "69" ?_ ?_ ?_
    · intro hn hmem
      cases hmem with
      | head => exact (by decide : eqIgnoreCase "Via" "max-forwards" = false)
      | tail _ htl => cases htl
    · intro p hp hci
      cases hp with
      | head =>
        exact absurd (show eqIgnoreCase "Call-ID" "max-forwards" = true from hci)
          (by decide)
      | tail _ hp1 =>
        cases hp1 with
        | head =>
          exact absurd (show eqIgnoreCase "Contact" "max-forwards" = true from hci)
            (by decide)
        | tail _ hp2 =>
          cases hp2 with
          | head => rfl
          | tail _ hp3 => cases hp3
    · intro name hname
      exact ⟨"Max-Forwards",
        b2buaModifier_find_maxForwards msg newCallId contact _ name hname⟩
  · refine build_header_exists _ "max-forwards" "69" "Max-Forwards" ?_ (by decide) ?_ ?_
    · exact List.mem_cons_of_mem _ (List.mem_cons_of_mem _ (List.mem_cons_self _ _))
    · intro name hname
      exact ⟨"Max-Forwards",
        b2buaModifier_find_maxForwards msg newCallId contact _ name hname⟩
    · intro name hname
      exact b2buaModifier_strip_replaced msg newCallId contact _ "max-forwards"
        (by decide) (by decide) name hname

/-- Witness for C3 (amended) on a concrete INVITE with two Via headers, a
Record-Route, `Call-ID: orig`, a Contact and `Max-Forwards: 70`. -/
theorem c3_create_b2bua_request_amended_witness :
    ∃ out, createB2buaRequest
        { firstLine := "INVITE sip:bob@example.com SIP/2.0",
          headers := [("Via", "SIP/2.0/UDP pc33.example.com;branch=z9hG4bK776asdhds"),
                      ("Via", "SIP/2.0/UDP server10.example.com;branch=z9hG4bK4b43c2"),
                      ("Record-Route", "<sip:proxy.example.com;lr>"),
                      ("From", "Alice <sip:alice@example.com>;tag=123"),
                      ("To", "Bob <sip:bob@example.com>"),
                      ("Call-ID", "orig"), ("CSeq", "1 INVITE"),
                      ("Contact", "<sip:alice@client>"), ("Max-Forwards", "70"),
                      ("Content-Length", "0")],
          body := none }
        "b" "<sip:b@1.2.3.4:5060>" "z9hG4bKb" "1.2.3.4" 5060 = Except.ok out ∧
      out.headers.head? = some ("Via", "SIP/2.0/UDP 1.2.3.4:5060;branch=z9hG4bKb") ∧
      out.headers.filter (fun h => eqIgnoreCase h.1 "via") =
        [("Via", "SIP/2.0/UDP 1.2.3.4:5060;branch=z9hG4bKb")] ∧
      out.headers.filter (fun h => eqIgnoreCase h.1 "record-route") = [] ∧
      (∀ h ∈ out.headers, eqIgnoreCase h.1 "call-id" = true → h.2 = "b") ∧
      (∃ h ∈ out.headers, eqIgnoreCase h.1 "call-id" = true ∧ h.2 = "b") ∧
      (∀ h ∈ out.headers, eqIgnoreCase h.1 "contact" = true →
        h.2 = "<sip:b@1.2.3.4:5060>") ∧
      (∃ h ∈ out.headers, eqIgnoreCase h.1 "contact" = true ∧
        h.2 = "<sip:b@1.2.3.4:5060>") ∧
      (∀ h ∈ out.headers, eqIgnoreCase h.1 "max-forwards" = true → h.2 = "69") ∧
      (∃ h ∈ out.headers, eqIgnoreCase h.1 "max-forwards" = true ∧ h.2 = "69") :=
  c3_create_b2bua_request_amended
    { firstLine := "INVITE sip:bob@example.com SIP/2.0",
      headers := [("Via", "SIP/2.0/UDP pc33.example.com;branch=z9hG4bK776asdhds"),
                  ("Via", "SIP/2.0/UDP server10.example.com;branch=z9hG4bK4b43c2"),
                  ("Record-Route", "<sip:proxy.example.com;lr>"),
                  ("From", "Alice <sip:alice@example.com>;tag=123"),
                  ("To", "Bob <sip:bob@example.com>"),
                  ("Call-ID", "orig"), ("CSeq", "1 INVITE"),
                  ("Contact", "<sip:alice@client>"), ("Max-Forwards", "70"),
                  ("Content-Length", "0")],
      body := none }
    "b" "<sip:b@1.2.3.4:5060>" "z9hG4bKb" "1.2.3.4" 5060
    (by decide) (by decide)

/-! ## Header dispatch of the message parser
(`main_impl.rs::process_header_line`, `parsing.rs`, `validation.rs`)

The claims about duplicate detection concern the per-logical-header dispatch
of `SipMessage::parse`, which we embed over the list of logical header lines
as `(raw name, value)` pairs (the text before the first `:` and the trimmed
text after it, after unfolding). -/

/-- Rust `char::is_control` (the Unicode `Cc` category:
`U+0000`–`U+001F` and `U+007F`–`U+009F`). -/
def isControlChar (c : Char) : Bool :=
  c.toNat < 32 ∨ (127 ≤ c.toNat ∧ c.toNat ≤ 159)

/-- The characters `validation::validate_header_name` rejects: controls and
the RFC 3261 separators. -/
def isInvalidHeaderNameChar (c : Char) : Bool :=
  isControlChar c ∨
  c = '(' ∨ c = ')' ∨ c = '<' ∨ c = '>' ∨
  c = '@' ∨ c = ',' ∨ c = ';' ∨ c = ':' ∨
  c = '\\' ∨ c = Char.ofNat 34 ∨ c = '/' ∨ c = '[' ∨
  c = ']' ∨ c = '?' ∨ c = '=' ∨ c = Char.ofNat 123 ∨
  c = Char.ofNat 125 ∨ c = ' ' ∨ c = '\t'

/-- The single-quote character used by the validation error message. -/
def singleQuote : String := String.singleton (Char.ofNat 39)

/-- `validation::validate_header_name`: error at the first offending
character. -/
def validateHeaderName (name : String) : Except SsbcError Unit :=
  match name.data.find? isInvalidHeaderNameChar with
  | some ch =>
    .error (.ParseError ("Invalid character " ++ singleQuote ++
      String.singleton ch ++ singleQuote ++ " in header name"))
  | none => .ok ()

/-- `validation::sanitize_header_value`: reject any raw CR or LF, then drop
control characters other than TAB. -/
def sanitizeHeaderValue (value : String) : Except SsbcError String :=
  if value.data.any (fun c => c = '\r' ∨ c = '\n') then
    .error (.ParseError "Header injection attempt detected")
  else
    .ok ⟨value.data.filter (fun c => c = '\t' ∨ ¬ isControlChar c)⟩

/-- `SipMessage::expand_compact_header` (`main_impl.rs`): note that this
code maps `m` to `max-forwards`. -/
def expandCompactHeader (name : String) : String :=
  if name = "v" then "via"
  else if name = "i" then "call-id"
  else if name = "m" then "max-forwards"
  else if name = "e" then "content-encoding"
  else if name = "l" then "content-length"
  else if name = "c" then "content-type"
  else if name = "f" then "from"
  else if name = "t" then "to"
  else if name = "r" then "refer-to"
  else if name = "b" then "referred-by"
  else if name = "k" then "supported"
  else if name = "o" then "event"
  else if name = "u" then "allow-events"
  else if name = "a" then "accept-contact"
  else if name = "j" then "reject-contact"
  else if name = "d" then "request-disposition"
  else if name = "x" then "session-expires"
  else if name = "y" then "identity"
  else if name = "n" then "identity-info"
  else if name = "h" then "date"
  else if name = "s" then "subject"
  else name

/-- The header slots and lists of `SipMessage` that
`process_header_line` fills (values stand for the `Raw` ranges). -/
structure SipHeadersState where
  toH : Option String
  fromH : Option String
  cseq : Option String
  callId : Option String
  maxForwards : Option String
  subscriptionState : Option String
  referTo : Option String
  viaHeaders : List String
  contactHeaders : List String
  headers : List (String × String)
  contactHasMultipleEntries : Bool
  deriving DecidableEq

/-- The state of a freshly constructed `SipMessage`. -/
def SipHeadersState.init : SipHeadersState :=
  { toH := none, fromH := none, cseq := none, callId := none,
    maxForwards := none, subscriptionState := none, referTo := none,
    viaHeaders := [], contactHeaders := [], headers := [],
    contactHasMultipleEntries := false }

/-- `SipMessage::process_header_line` for one logical header line: validate
the name, lowercase it, expand the compact form, sanitize the value, then
dispatch — required single-occurrence headers fail with
`"Duplicate X header"` when their slot is already set
(`check_duplicate_and_set!`). -/
def processHeaderLine (st : SipHeadersState) (rawName value : String) :
    Except SsbcError SipHeadersState :=
  match validateHeaderName rawName with
  | .error e => .error e
  | .ok () =>
    let lowercaseName := lowerStr rawName
    let normalizedName := expandCompactHeader lowercaseName
    match sanitizeHeaderValue value with
    | .error e => .error e
    | .ok _ =>
      if normalizedName = "via" then
        .ok { st with viaHeaders := st.viaHeaders ++ [value],
                      headers := st.headers ++ [(rawName, value)] }
      else if normalizedName = "to" then
        match st.toH with
        | some _ => .error (.ParseError "Duplicate To header")
        | none => .ok { st with toH := some value }
      else if normalizedName = "from" then
        match st.fromH with
        | some _ => .error (.ParseError "Duplicate From header")
        | none => .ok { st with fromH := some value }
      else if normalizedName = "call-id" then
        match st.callId with
        | some _ => .error (.ParseError "Duplicate Call-ID header")
        | none => .ok { st with callId := some value }
      else if normalizedName = "cseq" then
        match st.cseq with
        | some _ => .error (.ParseError "Duplicate CSeq header")
        | none => .ok { st with cseq := some value }
      else if normalizedName = "max-forwards" then
        match st.maxForwards with
        | some _ => .error (.ParseError "Duplicate Max-Forwards header")
        | none => .ok { st with maxForwards := some value }
      else if normalizedName = "event" then
        .ok { st with headers := st.headers ++ [(rawName, value)] }
      else if normalizedName = "subscription-state" then
        .ok { st with subscriptionState := some value }
      else if normalizedName = "refer-to" then
        .ok { st with referTo := some value }
      else if normalizedName = "contact" then
        .ok { st with contactHeaders := st.contactHeaders ++ [value],
                      contactHasMultipleEntries :=
                        st.contactHasMultipleEntries || value.data.any (· = ','),
                      headers := st.headers ++ [(rawName, value)] }
      else
        .ok { st with headers := st.headers ++ [(rawName, value)] }

/-- The header-processing loop of `parse_with_validation`, over the logical
header lines in order. -/
def parseHeaderLines (hs : List (String × String)) :
    Except SsbcError SipHeadersState :=
  hs.foldlM (fun st h => processHeaderLine st h.1 h.2) SipHeadersState.init

/-- The required single-occurrence headers, by normalized name. -/
def fiveNames : List String := ["to", "from", "call-id", "cseq", "max-forwards"]

/-- Display name used in the `"Duplicate X header"` message. -/
def displayName : String → String
  | "to" => "To"
  | "from" => "From"
  | "call-id" => "Call-ID"
  | "cseq" => "CSeq"
  | "max-forwards" => "Max-Forwards"
  | _ => ""

/-- The dedicated slot of a required single-occurrence header. -/
def slotOf (st : SipHeadersState) (k : String) : Option String :=
  if k = "to" then st.toH
  else if k = "from" then st.fromH
  else if k = "call-id" then st.callId
  else if k = "cseq" then st.cseq
  else if k = "max-forwards" then st.maxForwards
  else none

/-- Normalized (lowercased, compact-expanded) name of a header line. -/
def normName (h : String × String) : String :=
  expandCompactHeader (lowerStr h.1)

/-- Occurrences of normalized name `n` among the header lines. -/
def countNorm (hs : List (String × String)) (n : String) : Nat :=
  (hs.filter (fun h => normName h = n)).length

theorem slotOf_to (st : SipHeadersState) : slotOf st "to" = st.toH := rfl

theorem slotOf_from (st : SipHeadersState) : slotOf st "from" = st.fromH := rfl

theorem slotOf_callId (st : SipHeadersState) : slotOf st "call-id" = st.callId := rfl

theorem slotOf_cseq (st : SipHeadersState) : slotOf st "cseq" = st.cseq := rfl

theorem slotOf_maxForwards (st : SipHeadersState) :
    slotOf st "max-forwards" = st.maxForwards := rfl

theorem countNorm_cons (h : String × String) (hs : List (String × String))
    (n : String) :
    countNorm (h :: hs) n =
      (if normName h = n then 1 else 0) + countNorm hs n := by
  by_cases hn : normName h = n
  · rw [if_pos hn]
    simp only [countNorm, List.filter_cons, if_pos (by simp [hn] :
      (fun h => decide (normName h = n)) h = true), List.length_cons]
    omega
  · rw [if_neg hn]
    simp only [countNorm, List.filter_cons, if_neg (by simp [hn] :
      ¬ (fun h => decide (normName h = n)) h = true), Nat.zero_add]

/-- A header line whose normalized name is a required single-occurrence
header errors with the `Duplicate` message when the slot is already set. -/
theorem processHeaderLine_dup (st : SipHeadersState) (name value n : String)
    (hv : validateHeaderName name = .ok ())
    (hw : ∃ w, sanitizeHeaderValue value = .ok w)
    (hn : n ∈ fiveNames)
    (hnorm : expandCompactHeader (lowerStr name) = n)
    (hslot : (slotOf st n).isSome = true) :
    processHeaderLine st name value =
      .error (.ParseError ("Duplicate " ++ displayName n ++ " header")) := by
  obtain ⟨w, hw2⟩ := hw
  simp only [fiveNames, List.mem_cons, List.not_mem_nil, or_false] at hn
  rcases hn with rfl | rfl | rfl | rfl | rfl <;>
  · simp only [slotOf_to, slotOf_from, slotOf_callId, slotOf_cseq,
      slotOf_maxForwards] at hslot
    obtain ⟨v, hv2⟩ := Option.isSome_iff_exists.mp hslot
    simp [processHeaderLine, hv, hw2, hnorm, hv2, displayName]

/-- A header line whose normalized name is a required single-occurrence
header with an empty slot fills exactly that slot. -/
theorem processHeaderLine_first (st : SipHeadersState) (name value n : String)
    (hv : validateHeaderName name = .ok ())
    (hw : ∃ w, sanitizeHeaderValue value = .ok w)
    (hn : n ∈ fiveNames)
    (hnorm : expandCompactHeader (lowerStr name) = n)
    (hslot : slotOf st n = none) :
    ∃ st2, processHeaderLine st name value = .ok st2 ∧
      slotOf st2 n = some value ∧
      ∀ k, k ≠ n → slotOf st2 k = slotOf st k := by
  obtain ⟨w, hw2⟩ := hw
  simp only [fiveNames, List.mem_cons, List.not_mem_nil, or_false] at hn
  rcases hn with rfl | rfl | rfl | rfl | rfl
  · rw [slotOf_to] at hslot
    refine ⟨{ st with toH := some value }, ?_, rfl, ?_⟩
    · simp [processHeaderLine, hv, hw2, hnorm, hslot]
    · intro k hk
      simp only [slotOf]
      split_ifs <;> simp_all
  · rw [slotOf_from] at hslot
    refine ⟨{ st with fromH := some value }, ?_, rfl, ?_⟩
    · simp [processHeaderLine, hv, hw2, hnorm, hslot]
    · intro k hk
      simp only [slotOf]
      split_ifs <;> simp_all
  · rw [slotOf_callId] at hslot
    refine ⟨{ st with callId := some value }, ?_, rfl, ?_⟩
    · simp [processHeaderLine, hv, hw2, hnorm, hslot]
    · intro k hk
      simp only [slotOf]
      split_ifs <;> simp_all
  · rw [slotOf_cseq] at hslot
    refine ⟨{ st with cseq := some value }, ?_, rfl, ?_⟩
    · simp [processHeaderLine, hv, hw2, hnorm, hslot]
    · intro k hk
      simp only [slotOf]
      split_ifs <;> simp_all
  · rw [slotOf_maxForwards] at hslot
    refine ⟨{ st with maxForwards := some value }, ?_, rfl, ?_⟩
    · simp [processHeaderLine, hv, hw2, hnorm, hslot]
    · intro k hk
      simp only [slotOf]
      split_ifs <;> simp_all

/-- A header line whose normalized name is not a required
single-occurrence header succeeds and preserves all five slots. -/
theorem processHeaderLine_other (st : SipHeadersState) (name value : String)
    (hv : validateHeaderName name = .ok ())
    (hw : ∃ w, sanitizeHeaderValue value = .ok w)
    (hm : expandCompactHeader (lowerStr name) ∉ fiveNames) :
    ∃ st2, processHeaderLine st name value = .ok st2 ∧
      ∀ k, slotOf st2 k = slotOf st k := by
  obtain ⟨w, hw2⟩ := hw
  simp only [fiveNames, List.mem_cons, List.not_mem_nil, or_false,
    not_or] at hm
  obtain ⟨hto, hfrom, hcid, hcseq, hmf⟩ := hm
  by_cases hvia : expandCompactHeader (lowerStr name) = "via"
  · refine ⟨{ st with viaHeaders := st.viaHeaders ++ [value], headers := st.headers ++ [(name, value)] }, ?_, ?_⟩
    · simp [processHeaderLine, hv, hw2, hvia]
    · intro k
      simp only [slotOf]
  · by_cases hev : expandCompactHeader (lowerStr name) = "event"
    · refine ⟨{ st with headers := st.headers ++ [(name, value)] }, ?_, ?_⟩
      · simp [processHeaderLine, hv, hw2, hvia, hto, hfrom, hcid, hcseq, hmf, hev]
      · intro k
        simp only [slotOf]
    · by_cases hss : expandCompactHeader (lowerStr name) = "subscription-state"
      · refine ⟨{ st with subscriptionState := some value }, ?_, ?_⟩
        · simp [processHeaderLine, hv, hw2, hvia, hto, hfrom, hcid, hcseq, hmf, hev, hss]
        · intro k
          simp only [slotOf]
      · by_cases hrt : expandCompactHeader (lowerStr name) = "refer-to"
        · refine ⟨{ st with referTo := some value }, ?_, ?_⟩
          · simp [processHeaderLine, hv, hw2, hvia, hto, hfrom, hcid, hcseq, hmf, hev, hss, hrt]
          · intro k
            simp only [slotOf]
        · by_cases hct : expandCompactHeader (lowerStr name) = "contact"
          · refine ⟨{ st with contactHeaders := st.contactHeaders ++ [value], contactHasMultipleEntries := st.contactHasMultipleEntries || value.data.any (· = ','), headers := st.headers ++ [(name, value)] }, ?_, ?_⟩
            · simp [processHeaderLine, hv, hw2, hvia, hto, hfrom, hcid, hcseq, hmf, hev, hss, hrt, hct]
            · intro k
              simp only [slotOf]
          · refine ⟨{ st with headers := st.headers ++ [(name, value)] }, ?_, ?_⟩
            · simp [processHeaderLine, hv, hw2, hvia, hto, hfrom, hcid, hcseq, hmf, hev, hss, hrt, hct]
            · intro k
              simp only [slotOf]

/-- Under well-formed header lines, once a required single-occurrence
header is bound to appear twice (counting an already filled slot) and no
other required header is, the header-processing fold errors with exactly
its `Duplicate` message. -/
theorem foldlM_processHeaderLine_dup (n : String)
    (hs : List (String × String)) :
    ∀ st : SipHeadersState, n ∈ fiveNames →
    (∀ h ∈ hs, validateHeaderName h.1 = .ok () ∧
      ∃ w, sanitizeHeaderValue h.2 = .ok w) →
    2 ≤ countNorm hs n + (if (slotOf st n).isSome then 1 else 0) →
    (∀ m ∈ fiveNames, m ≠ n →
      countNorm hs m + (if (slotOf st m).isSome then 1 else 0) ≤ 1) →
    hs.foldlM (fun st h => processHeaderLine st h.1 h.2) st =
      .error (.ParseError ("Duplicate " ++ displayName n ++ " header")) := by
  induction hs with
  | nil =>
    intro st hn wf hcount hothers
    exfalso
    simp only [countNorm, List.filter_nil, List.length_nil,
      Nat.zero_add] at hcount
    cases hb : (slotOf st n).isSome <;> rw [hb] at hcount <;>
      simp at hcount
  | cons h rest ih =>
    intro st hn wf hcount hothers
    obtain ⟨name, value⟩ := h
    have hv := (wf _ (List.mem_cons_self _ _)).1
    have hw := (wf _ (List.mem_cons_self _ _)).2
    have wfrest : ∀ h ∈ rest, validateHeaderName h.1 = .ok () ∧
        ∃ w, sanitizeHeaderValue h.2 = .ok w :=
      fun h hh => wf h (List.mem_cons_of_mem _ hh)
    have hfold : ((name, value) :: rest).foldlM
        (fun st h => processHeaderLine st h.1 h.2) st =
        processHeaderLine st name value >>= fun s =>
          rest.foldlM (fun st h => processHeaderLine st h.1 h.2) s := rfl
    rw [hfold]
    by_cases hin : normName (name, value) ∈ fiveNames
    · by_cases heq : normName (name, value) = n
      · cases hslot : slotOf st n with
        | some v =>
          rw [processHeaderLine_dup st name value n hv hw hn heq
            (by rw [hslot]; rfl)]
          rfl
        | none =>
          obtain ⟨st2, hok, hset, hpres⟩ :=
            processHeaderLine_first st name value n hv hw hn heq hslot
          rw [hok]
          show rest.foldlM (fun st h => processHeaderLine st h.1 h.2) st2 = _
          apply ih st2 hn wfrest
          · have h2 : (if (slotOf st2 n).isSome = true then 1 else 0) = 1 := by
              rw [hset]
              rfl
            have h0 : (if (slotOf st n).isSome = true then 1 else 0) = 0 := by
              rw [hslot]
              rfl
            rw [countNorm_cons, if_pos heq, h0] at hcount
            rw [h2]
            omega
          · intro m hm hmn
            have hne : ¬ normName (name, value) = m := by
              rw [heq]
              exact fun hc => hmn hc.symm
            have hcm := hothers m hm hmn
            rw [countNorm_cons, if_neg hne, Nat.zero_add] at hcm
            rw [hpres m hmn]
            exact hcm
      · have hoth0 := hothers _ hin heq
        rw [countNorm_cons, if_pos rfl] at hoth0
        have hslot0 : slotOf st (normName (name, value)) = none := by
          cases hb : slotOf st (normName (name, value)) with
          | none => rfl
          | some v =>
            exfalso
            rw [hb] at hoth0
            rw [show (if (some v).isSome = true then 1 else 0) = 1
              from rfl] at hoth0
            omega
        have hq0 : (if (slotOf st (normName (name, value))).isSome = true
            then 1 else 0) = 0 := by
          rw [hslot0]
          rfl
        rw [hq0] at hoth0
        have hcnt0 : countNorm rest (normName (name, value)) = 0 := by omega
        obtain ⟨st2, hok, hset, hpres⟩ :=
          processHeaderLine_first st name value (normName (name, value))
            hv hw hin rfl hslot0
        rw [hok]
        show rest.foldlM (fun st h => processHeaderLine st h.1 h.2) st2 = _
        apply ih st2 hn wfrest
        · rw [countNorm_cons, if_neg heq, Nat.zero_add] at hcount
          rw [hpres n (fun hc => heq hc.symm)]
          exact hcount
        · intro m hm hmn
          by_cases hmm : m = normName (name, value)
          · rw [hmm]
            have hq2 : (if (slotOf st2 (normName (name, value))).isSome = true
                then 1 else 0) = 1 := by
              rw [hset]
              rfl
            rw [hq2, hcnt0]
          · have hcm := hothers m hm hmn
            have hne2 : ¬ normName (name, value) = m := fun hc => hmm hc.symm
            rw [countNorm_cons, if_neg hne2, Nat.zero_add] at hcm
            rw [hpres m hmm]
            exact hcm
    · obtain ⟨st2, hok, hpres⟩ := processHeaderLine_other st name value hv hw hin
      rw [hok]
      show rest.foldlM (fun st h => processHeaderLine st h.1 h.2) st2 = _
      apply ih st2 hn wfrest
      · have hne : ¬ normName (name, value) = n := fun hc =>
          hin (by rw [hc]; exact hn)
        rw [countNorm_cons, if_neg hne, Nat.zero_add] at hcount
        rw [hpres n]
        exact hcount
      · intro m hm hmn
        have hcm := hothers m hm hmn
        have hne : ¬ normName (name, value) = m := fun hc =>
          hin (by rw [hc]; exact hm)
        rw [countNorm_cons, if_neg hne, Nat.zero_add] at hcm
        rw [hpres m]
        exact hcm

/-- **C5.** For every sequence of logical header lines in which exactly one
of the required single-occurrence headers To, From, Call-ID, CSeq or
Max-Forwards occurs twice after lowercasing and compact-form expansion
(and whose names and values pass validation and sanitization), the header
processing loop of the parser fails with a `ParseError` whose message is
exactly `"Duplicate X header"` for that header, and hence never produces a
parsed message. -/
theorem c5_duplicate_required_header_is_hard_error
    (hs : List (String × String)) (n : String)
    (hn : n ∈ fiveNames)
    (wf : ∀ h ∈ hs, validateHeaderName h.1 = .ok () ∧
      ∃ w, sanitizeHeaderValue h.2 = .ok w)
    (hdup : 2 ≤ countNorm hs n)
    (hothers : ∀ m ∈ fiveNames, m ≠ n → countNorm hs m ≤ 1) :
    parseHeaderLines hs =
      .error (.ParseError ("Duplicate " ++ displayName n ++ " header")) := by
  have hinit : ∀ k, slotOf SipHeadersState.init k = none := by
    intro k
    simp only [slotOf, SipHeadersState.init]
    split_ifs <;> rfl
  have hq : ∀ k, (if (slotOf SipHeadersState.init k).isSome = true
      then 1 else 0) = 0 := by
    intro k
    rw [hinit k]
    rfl
  show hs.foldlM (fun st h => processHeaderLine st h.1 h.2)
    SipHeadersState.init = _
  apply foldlM_processHeaderLine_dup n hs SipHeadersState.init hn wf
  · rw [hq n]
    omega
  · intro m hm hmn
    rw [hq m]
    have := hothers m hm hmn
    omega

theorem c5_duplicate_required_header_is_hard_error_witness :
    2 ≤ countNorm [("Via", "SIP/2.0/UDP pbx.example.com"),
        ("To", "<sip:alice@example.com>"),
        ("From", "<sip:bob@example.com>;tag=1"),
        ("t", "<sip:alice-again@example.com>")] "to" ∧
    parseHeaderLines [("Via", "SIP/2.0/UDP pbx.example.com"),
        ("To", "<sip:alice@example.com>"),
        ("From", "<sip:bob@example.com>;tag=1"),
        ("t", "<sip:alice-again@example.com>")] =
      .error (.ParseError "Duplicate To header") :=
  ⟨by decide,
   c5_duplicate_required_header_is_hard_error _ "to" (by decide)
     (by intro h hh; fin_cases hh <;> exact ⟨rfl, _, rfl⟩)
     (by decide) (by decide)⟩

end Ssbc
